import Mathlib

/-!
A shallow embedding of the segment-reclaim engine in `fs/f2fs/gc.c` of this
repository, together with theorems checking the specification's claims about
it.  Pure arithmetic of the C source is translated to `Nat` with explicit
`% 2 ^ 32` where unsigned-int wraparound can occur; external collaborators
(SIT, node table, page cache, checkpoint layer) are modelled as oracle
functions recorded in environment structures, and the evolving parts of
`f2fs_sb_info` are threaded explicitly through each operation.
-/

set_option maxRecDepth 4096

/-- Value of `UINT_MAX` on the 32-bit `unsigned int` used throughout `gc.c`. -/
def UINT_MAX : Nat := 2 ^ 32 - 1

/-- Unsigned 32-bit subtraction `a - b` (wraparound semantics of C). -/
def sub32 (a b : Nat) : Nat := (a % 2 ^ 32 + (2 ^ 32 - b % 2 ^ 32)) % 2 ^ 32

/-- The `gc_type` argument: foreground (`FG_GC`) or background (`BG_GC`). -/
inductive GcType where
  | FG_GC
  | BG_GC
deriving DecidableEq

/-- The victim-selection mode `gc_mode`: cost-benefit or greedy. -/
inductive GcMode where
  | GC_CB
  | GC_GREEDY
deriving DecidableEq

/-- The allocator mode `alloc_mode`: log-structured or slack-space recycling. -/
inductive AllocMode where
  | LFS
  | SSR
deriving DecidableEq

open GcType GcMode AllocMode

/-- Position of the `DIRTY` class in the `enum dirty_type` of `segment.h`
(the classes `DIRTY_HOT_DATA .. DIRTY_COLD_NODE` occupy indices 0..5). -/
def DIRTY : Nat := 6

/-- The slice of `f2fs_sb_info` (with its `sit_info` and `dirty_seglist_info`)
that `gc.c`'s victim selection reads and writes.  Per-segment SIT data and the
availability predicates of external layers are oracle functions. -/
structure Sbi where
  /-- `sbi->log_blocks_per_seg`; a segment holds `2 ^ logBlocksPerSeg` blocks. -/
  logBlocksPerSeg : Nat
  /-- `sbi->segs_per_sec`. -/
  segsPerSec : Nat
  /-- `sbi->max_victim_search`. -/
  maxVictimSearch : Nat
  /-- `MAIN_SEGS(sbi)`. -/
  mainSegs : Nat
  /-- `sbi->gc_thread`: `none` models a NULL thread, otherwise its `gc_idle`. -/
  gcIdle : Option Nat
  /-- `dirty_i->dirty_segmap[class]` as a per-class characteristic function. -/
  dirtySegmap : Nat → Nat → Bool
  /-- `dirty_i->nr_dirty[class]`. -/
  nrDirty : Nat → Nat
  /-- `dirty_i->victim_secmap` as a characteristic function over sections. -/
  victimSecmap : Nat → Bool
  /-- Oracle for `sec_usage_check(sbi, secno)` (defined in `segment.h`). -/
  secUsage : Nat → Bool
  /-- `get_seg_entry(sbi, segno)->mtime`. -/
  segMtime : Nat → Nat
  /-- `get_seg_entry(sbi, segno)->ckpt_valid_blocks`. -/
  segCkptValid : Nat → Nat
  /-- `get_valid_blocks(sbi, segno, span)`. -/
  validBlocks : Nat → Nat → Nat
  /-- `sbi->last_victim[gc_mode]`. -/
  lastVictim : GcMode → Nat
  /-- `sbi->cur_victim_sec` (`none` models `NULL_SEGNO`). -/
  curVictimSec : Option Nat
  /-- `sit_i->min_mtime`. -/
  minMtime : Nat
  /-- `sit_i->max_mtime`. -/
  maxMtime : Nat

/-- `MAIN_SECS(sbi)`. -/
def mainSecs (sbi : Sbi) : Nat := sbi.mainSegs / sbi.segsPerSec

/-- `GET_SECNO(sbi, segno)`. -/
def getSecno (sbi : Sbi) (segno : Nat) : Nat := segno / sbi.segsPerSec

/-- Write `sbi->last_victim[m] = v`. -/
def setLastVictim (sbi : Sbi) (m : GcMode) (v : Nat) : Sbi :=
  { sbi with lastVictim := fun m' => if m' = m then v else sbi.lastVictim m' }

/-- Clear bit `secno` of `dirty_i->victim_secmap`. -/
def clearVictimBit (sbi : Sbi) (secno : Nat) : Sbi :=
  { sbi with victimSecmap := fun s => if s = secno then false else sbi.victimSecmap s }

/-- Set bit `secno` of `dirty_i->victim_secmap`. -/
def setVictimBit (sbi : Sbi) (secno : Nat) : Sbi :=
  { sbi with victimSecmap := fun s => if s = secno then true else sbi.victimSecmap s }

/-- The cost-benefit cost `get_cb_cost(sbi, segno)`: the section's mean segment
mtime and mean per-segment valid count are formed, the SIT mtime range is
clamped to contain the mean mtime, and the cost
`UINT_MAX - (100*(100-u)*age)/(100+u)` is returned together with the updated
`sit_i` mtime range.  All quantities stay below `2 ^ 32`, so plain `Nat`
arithmetic coincides with the C unsigned arithmetic here. -/
def get_cb_cost (sbi : Sbi) (segno : Nat) : Nat × Sbi :=
  let secno := getSecno sbi segno
  let start := secno * sbi.segsPerSec
  let mtimeSum := ((List.range sbi.segsPerSec).map (fun i => sbi.segMtime (start + i))).sum
  let vblocks0 := sbi.validBlocks segno sbi.segsPerSec
  let mtime := mtimeSum / sbi.segsPerSec
  let vblocks := vblocks0 / sbi.segsPerSec
  let u := vblocks * 100 / 2 ^ sbi.logBlocksPerSeg % 256
  let minM := if mtime < sbi.minMtime then mtime else sbi.minMtime
  let maxM := if mtime > sbi.maxMtime then mtime else sbi.maxMtime
  let age := if maxM ≠ minM then 100 - 100 * (mtime - minM) / (maxM - minM) else 0
  (UINT_MAX - 100 * (100 - u) * age / (100 + u),
   { sbi with minMtime := minM, maxMtime := maxM })

/-- Modelled from the spec: the cost formula the specification states for
`LFS/Cost-Benefit`, taken verbatim — `u = (100·valid)/B` for the section's
valid-block count `valid` with `B` blocks per segment, and
`age = 100 − 100·(mtime−min_mtime)/(max_mtime−min_mtime)` for the section's
mtime (zero if the range is degenerate). -/
def specCbCost (B valid mtime minMtime maxMtime : Nat) : Nat :=
  let u := 100 * valid / B
  let age := if maxMtime = minMtime then 0
             else 100 - 100 * (mtime - minMtime) / (maxMtime - minMtime)
  UINT_MAX - 100 * (100 - u) * age / (100 + u)

/-- A node-table record, as returned by `get_node_info`. -/
structure NodeInfoT where
  version : Nat
  blkAddr : Nat
  ino : Nat

/-- The parts of a node page that `is_alive` reads. -/
structure NodePage where
  /-- `ofs_of_node(page)`: the node's offset within its inode's node tree. -/
  ofsOfNode : Nat
  /-- `datablock_addr(page, ofs)`: block address stored at slot `ofs`. -/
  datablockAddr : Nat → Nat

/-- Oracles for the node layer (`get_node_page`, `get_node_info`). -/
structure NodeEnv where
  /-- `get_node_page(sbi, nid)`; `none` models `IS_ERR(node_page)`. -/
  getNodePage : Nat → Option NodePage
  /-- `get_node_info(sbi, nid, &ni)`. -/
  getNodeInfo : Nat → NodeInfoT

/-- A summary-block entry `struct f2fs_summary`. -/
structure SummaryEntry where
  nid : Nat
  version : Nat
  ofsInNode : Nat

/-- The validity cross-check `is_alive(sbi, sum, dni, blkaddr, nofs)`.
Returns the boolean result and the value left in `*nofs` (`none` when the
assignment `*nofs = ofs_of_node(...)` was not reached). -/
def is_alive (env : NodeEnv) (sum : SummaryEntry) (blkaddr : Nat) :
    Bool × Option Nat :=
  match env.getNodePage sum.nid with
  | none => (false, none)
  | some nodePage =>
    let dni := env.getNodeInfo sum.nid
    if sum.version ≠ dni.version then (false, none)
    else
      let nofs := nodePage.ofsOfNode
      let sourceBlkaddr := nodePage.datablockAddr sum.ofsInNode
      if sourceBlkaddr ≠ blkaddr then (false, some nofs)
      else (true, some nofs)

/-- `start_bidx_of_node(node_ofs, fi)`, parameterized by the external
constants `NIDS_PER_BLOCK`, `ADDRS_PER_BLOCK` and `ADDRS_PER_INODE(fi)`.
The subtractions and the final multiply-add are the C `unsigned int`
operations, so they are taken modulo `2 ^ 32`. -/
def start_bidx_of_node (nidsPerBlock addrsPerBlock addrsPerInode node_ofs : Nat) : Nat :=
  let indirect_blks := 2 * nidsPerBlock + 4
  if node_ofs = 0 then 0
  else
    let bidx :=
      if node_ofs ≤ 2 then sub32 node_ofs 1
      else if node_ofs ≤ indirect_blks then
        let dec := sub32 node_ofs 4 / (nidsPerBlock + 1)
        sub32 (sub32 node_ofs 2) dec
      else
        let dec := sub32 (sub32 node_ofs indirect_blks) 3 / (nidsPerBlock + 1)
        sub32 (sub32 node_ofs 5) dec
    (bidx * addrsPerBlock + addrsPerInode) % 2 ^ 32

/-- The node offsets that designate the inode block or a direct node block in
the f2fs node tree with `N` nids per indirect block: the inode (0), the two
direct nodes (1, 2), the direct children of the two single-indirect nodes
(at 3 and `N+4`), and the direct children of the indirect nodes hanging off
the double-indirect node at `2N+5`. -/
def isDirectNodeOfs (N ofs : Nat) : Prop :=
  ofs = 0 ∨ ofs = 1 ∨ ofs = 2 ∨
  (4 ≤ ofs ∧ ofs ≤ N + 3) ∨ (N + 5 ≤ ofs ∧ ofs ≤ 2 * N + 4) ∨
  (2 * N + 7 ≤ ofs ∧ (ofs - (2 * N + 6)) % (N + 1) ≠ 0)

/-- `find_next_bit(map, size, offset)`: least set bit in `[offset, size)`, or
`size` when there is none. -/
def find_next_bit (map : Nat → Bool) (size offset : Nat) : Nat :=
  ((List.range' offset (size - offset)).find? (fun i => map i)).getD size

/-- `select_gc_type(gc_th, gc_type)`. -/
def select_gc_type (gcTh : Option Nat) (gcType : GcType) : GcMode :=
  let gcMode := if gcType = BG_GC then GC_CB else GC_GREEDY
  match gcTh with
  | none => gcMode
  | some gcIdle =>
    if gcIdle = 1 then GC_CB
    else if gcIdle = 2 then GC_GREEDY
    else gcMode

/-- The scan-independent fields of `struct victim_sel_policy`. -/
structure VictimPolicy where
  allocMode : AllocMode
  gcMode : GcMode
  /-- Which class's `dirty_segmap` the scan walks. -/
  dirtyType : Nat
  maxSearch : Nat
  ofsUnit : Nat
  offset : Nat
deriving DecidableEq

/-- `select_policy(sbi, gc_type, type, &p)` (with `p->alloc_mode` preset by
the caller, as in `get_victim_by_default`). -/
def select_policy (sbi : Sbi) (gcType : GcType) (type : Nat)
    (allocMode : AllocMode) : VictimPolicy :=
  let p : VictimPolicy :=
    if allocMode = SSR then
      { allocMode := allocMode, gcMode := GC_GREEDY, dirtyType := type,
        maxSearch := sbi.nrDirty type, ofsUnit := 1, offset := 0 }
    else
      { allocMode := allocMode, gcMode := select_gc_type sbi.gcIdle gcType,
        dirtyType := DIRTY, maxSearch := sbi.nrDirty DIRTY,
        ofsUnit := sbi.segsPerSec, offset := 0 }
  let maxSearch := if p.maxSearch > sbi.maxVictimSearch
                   then sbi.maxVictimSearch else p.maxSearch
  { p with maxSearch := maxSearch, offset := sbi.lastVictim p.gcMode }

/-- `get_max_cost(sbi, p)`. -/
def get_max_cost (sbi : Sbi) (p : VictimPolicy) : Nat :=
  if p.allocMode = SSR then 2 ^ sbi.logBlocksPerSeg
  else if p.gcMode = GC_GREEDY then 2 ^ sbi.logBlocksPerSeg * p.ofsUnit
  else UINT_MAX

/-- `check_bg_victims(sbi)`: first victim-reserved section below
`MAIN_SECS(sbi)` that passes `sec_usage_check`; its bit is cleared and its
first segment returned. -/
def check_bg_victims (sbi : Sbi) : Option Nat × Sbi :=
  match (List.range (mainSecs sbi)).find?
      (fun secno => sbi.victimSecmap secno && !sbi.secUsage secno) with
  | some secno => (some (secno * sbi.segsPerSec), clearVictimBit sbi secno)
  | none => (none, sbi)

/-- `get_gc_cost(sbi, segno, p)`. -/
def get_gc_cost (sbi : Sbi) (segno : Nat) (p : VictimPolicy) : Nat × Sbi :=
  if p.allocMode = SSR then (sbi.segCkptValid segno, sbi)
  else if p.gcMode = GC_GREEDY then (sbi.validBlocks segno sbi.segsPerSec, sbi)
  else get_cb_cost sbi segno

/-- How the candidate scan of `get_victim_by_default` stopped. -/
inductive ScanExit where
  /-- `break` out of the `while (1)` loop after `nsearched++ >= p.max_search`. -/
  | capHit
  /-- `break` because the bitmap ran out and no wrap was left. -/
  | exhausted
deriving DecidableEq

/-- The mutable state of the scan loop in `get_victim_by_default`:
the local variables together with the parts of `sbi` the loop writes.
`visited` records every candidate for which `get_gc_cost` was evaluated. -/
structure ScanState where
  offset : Nat
  lastSegment : Nat
  nsearched : Nat
  minSegno : Option Nat
  minCost : Nat
  sbi : Sbi
  visited : List Nat

/-- Outcome of one iteration of the `while (1)` scan: the loop `break`s with
the recorded cause, or continues with the updated state. -/
inductive ScanStep where
  | done (st : ScanState) (e : ScanExit)
  | next (st : ScanState)

/-- The body of the `while (1)` scan of `get_victim_by_default`: one
candidate-examination iteration (bitmap lookup, wrap handling, skip tests,
cost evaluation, running-minimum update, and the search-cap break). -/
def scan_step (gcType : GcType) (p : VictimPolicy) (maxCost : Nat)
    (st : ScanState) : ScanStep :=
  let segno := find_next_bit (st.sbi.dirtySegmap p.dirtyType) st.lastSegment st.offset
  if st.lastSegment ≤ segno then
    if st.sbi.lastVictim p.gcMode ≠ 0 then
      ScanStep.next { st with lastSegment := st.sbi.lastVictim p.gcMode,
                              sbi := setLastVictim st.sbi p.gcMode 0,
                              offset := 0 }
    else ScanStep.done st ScanExit.exhausted
  else
    let offset' := if p.ofsUnit > 1
                   then segno + p.ofsUnit - segno % p.ofsUnit
                   else segno + p.ofsUnit
    let st := { st with offset := offset' }
    let secno := getSecno st.sbi segno
    if st.sbi.secUsage secno then ScanStep.next st
    else if gcType = BG_GC ∧ st.sbi.victimSecmap secno then ScanStep.next st
    else
      let costSbi := get_gc_cost st.sbi segno p
      let cost := costSbi.1
      let st := { st with sbi := costSbi.2, visited := st.visited ++ [segno] }
      if st.minCost > cost then
        let st := { st with minSegno := some segno, minCost := cost }
        if p.maxSearch ≤ st.nsearched then
          ScanStep.done { st with nsearched := st.nsearched + 1,
                                  sbi := setLastVictim st.sbi p.gcMode segno }
            ScanExit.capHit
        else ScanStep.next { st with nsearched := st.nsearched + 1 }
      else if cost = maxCost then ScanStep.next st
      else
        if p.maxSearch ≤ st.nsearched then
          ScanStep.done { st with nsearched := st.nsearched + 1,
                                  sbi := setLastVictim st.sbi p.gcMode segno }
            ScanExit.capHit
        else ScanStep.next { st with nsearched := st.nsearched + 1 }

/-- The `while (1)` scan of `get_victim_by_default`: iterate `scan_step`,
fuel-indexed (`none` on fuel exhaustion; the caller supplies ample fuel). -/
def scan_loop (gcType : GcType) (p : VictimPolicy) (maxCost : Nat) :
    Nat → ScanState → Option (ScanState × ScanExit)
  | 0, _ => none
  | fuel + 1, st =>
    match scan_step gcType p maxCost st with
    | ScanStep.done st' e => some (st', e)
    | ScanStep.next st' => scan_loop gcType p maxCost fuel st'

/-- Which path produced the result of `get_victim_by_default`. -/
inductive VictimExit where
  /-- `p.max_search == 0`, so the function went straight to `out`. -/
  | noSearch
  /-- An `LFS`/`FG_GC` call was satisfied from `check_bg_victims`. -/
  | fastPath
  /-- The dirty-bitmap scan ran and stopped as recorded. -/
  | scanned (e : ScanExit)
deriving DecidableEq

/-- The observable outcome of `get_victim_by_default`: the returned segment
(`none` models returning 0 with `*result` unset), the updated superblock
state, and scan bookkeeping used by the theorems below. -/
structure VictimOut where
  result : Option Nat
  sbi : Sbi
  /-- The final `p.min_segno`. -/
  minSegno : Option Nat
  /-- The final `p.min_cost`. -/
  minCost : Nat
  /-- Candidates whose cost was evaluated, in scan order. -/
  visited : List Nat
  nsearched : Nat
  exit : VictimExit

/-- The `got_it` tail of `get_victim_by_default`: mark the chosen section in
`cur_victim_sec` (FG) or `victim_secmap` (BG) when in LFS mode, and normalize
the result to the first segment of the section. -/
def victim_got_it (sbi : Sbi) (gcType : GcType) (allocMode : AllocMode)
    (p : VictimPolicy) (minSegno : Nat) (minCost : Nat) (visited : List Nat)
    (nsearched : Nat) (exit : VictimExit) : VictimOut :=
  let sbi :=
    if allocMode = LFS then
      let secno := getSecno sbi minSegno
      if gcType = FG_GC then { sbi with curVictimSec := some secno }
      else setVictimBit sbi secno
    else sbi
  { result := some (minSegno / p.ofsUnit * p.ofsUnit), sbi := sbi,
    minSegno := some minSegno, minCost := minCost, visited := visited,
    nsearched := nsearched, exit := exit }

/-- `get_victim_by_default(sbi, result, gc_type, type, alloc_mode)`.
Fuel `2 * MAIN_SEGS + 4` is ample for the at-most-two passes of the scan;
`none` is returned only on fuel exhaustion. -/
def get_victim_by_default (sbi : Sbi) (gcType : GcType) (type : Nat)
    (allocMode : AllocMode) : Option VictimOut :=
  let p := select_policy sbi gcType type allocMode
  let maxCost := get_max_cost sbi p
  if p.maxSearch = 0 then
    some { result := none, sbi := sbi, minSegno := none, minCost := maxCost,
           visited := [], nsearched := 0, exit := VictimExit.noSearch }
  else
    let fast : Option Nat × Sbi :=
      if allocMode = LFS ∧ gcType = FG_GC then check_bg_victims sbi
      else (none, sbi)
    match fast with
    | (some minSegno, sbi') =>
      some (victim_got_it sbi' gcType allocMode p minSegno maxCost [] 0
              VictimExit.fastPath)
    | (none, sbi') =>
      match scan_loop gcType p maxCost (2 * sbi.mainSegs + 4)
          { offset := p.offset, lastSegment := sbi.mainSegs, nsearched := 0,
            minSegno := none, minCost := maxCost, sbi := sbi', visited := [] } with
      | none => none
      | some (st, e) =>
        match st.minSegno with
        | none =>
          some { result := none, sbi := st.sbi, minSegno := none,
                 minCost := st.minCost, visited := st.visited,
                 nsearched := st.nsearched, exit := VictimExit.scanned e }
        | some minSegno =>
          some (victim_got_it st.sbi gcType allocMode p minSegno st.minCost
                  st.visited st.nsearched (VictimExit.scanned e))

/-- Observable actions of the per-segment migrators. -/
inductive GEvent where
  /-- `ra_node_page(sbi, nid)`. -/
  | raNodePage (nid : Nat)
  /-- The node-page dirtying step of `gc_node_segment`'s second pass. -/
  | processNode (off : Nat)
  /-- `move_encrypted_block(inode, start_bidx)`. -/
  | moveEncrypted (off : Nat)
  /-- `move_data_page(inode, start_bidx, gc_type)`. -/
  | moveData (off : Nat)
  /-- `change_data_page(inode, start_bidx, gc_type)`. -/
  | changeData (off : Nat)
  /-- The phase-2 page-cache warming of the data migrators. -/
  | classifyData (off : Nat)
  /-- `sync_node_pages(sbi, 0, &wbc)` in `gc_node_segment`'s FG tail. -/
  | syncNodePages
  /-- `f2fs_submit_merged_bio(sbi, DATA, WRITE)` in the data migrators' FG tail. -/
  | submitMergedBio
  /-- The final `get_valid_blocks(sbi, segno, 1)` test. -/
  | checkValidBlocks
deriving DecidableEq

/-- Outcome of one `for (off = 0; off < blocks_per_seg; off++)` pass:
whether the pass aborted through the BG free-sections `return 0`, the events
it performed, and the loop entries `(phase, off)` it reached. -/
structure LoopOut where
  stopped : Bool
  trace : List GEvent
  visited : List (Nat × Nat)

/-- One migrator pass over the given offsets: before each offset the BG
free-sections check runs (`return 0` on failure), then the offset's body. -/
def mg_loop (gcType : GcType) (notEnough : Nat → Bool)
    (body : Nat → List GEvent) (phase : Nat) : List Nat → LoopOut
  | [] => { stopped := false, trace := [], visited := [] }
  | off :: rest =>
    if gcType = BG_GC ∧ notEnough off then
      { stopped := true, trace := [], visited := [] }
    else
      let r := mg_loop gcType notEnough body phase rest
      { stopped := r.stopped, trace := body off ++ r.trace,
        visited := (phase, off) :: r.visited }

/-- The `next_step` phase sequencing shared by the migrators: run the given
phases in order over offsets `0 .. B-1`, stopping the whole function as soon
as one pass aborts. -/
def mg_phases (gcType : GcType) (notEnough : Nat → Nat → Bool)
    (body : Nat → Nat → List GEvent) (B : Nat) : List Nat → LoopOut
  | [] => { stopped := false, trace := [], visited := [] }
  | ph :: rest =>
    let r := mg_loop gcType (notEnough ph) (body ph) ph (List.range B)
    if r.stopped then { r with stopped := true }
    else
      let r' := mg_phases gcType notEnough body B rest
      { stopped := r'.stopped, trace := r.trace ++ r'.trace,
        visited := r.visited ++ r'.visited }

/-- Result of a per-segment migrator: the freed-segment count it returns,
plus its event trace and visited loop entries. -/
structure MgOut where
  nfree : Nat
  trace : List GEvent
  visited : List (Nat × Nat)

/-- Oracles consumed by `gc_node_segment`.  `notEnough`/`validMap` are indexed
by `(phase, off)` because the underlying state can change between the two
passes; phase 0 is the `initial` read-ahead pass. -/
structure NodeGcEnv where
  /-- `sbi->blocks_per_seg`. -/
  blocksPerSeg : Nat
  /-- `has_not_enough_free_secs(sbi, 0)` as evaluated at `(phase, off)`. -/
  notEnough : Nat → Nat → Bool
  /-- `check_valid_map(sbi, segno, off)` at the loop entry of `(phase, off)`. -/
  validMap : Nat → Nat → Bool
  /-- `le32_to_cpu(entry->nid)` per offset. -/
  entryNid : Nat → Nat
  /-- Whether `get_node_page` succeeds (`!IS_ERR`) in the second pass. -/
  nodePageOk : Nat → Bool
  /-- The repeated `check_valid_map` after `get_node_page` returned. -/
  validMapAgain : Nat → Bool
  /-- Whether `ni.blk_addr == start_addr + off` holds. -/
  niAddrMatch : Nat → Bool
  /-- `get_valid_blocks(sbi, segno, 1)` after the passes. -/
  validAfter : Nat

/-- Loop body of `gc_node_segment` for one offset (given the phase). -/
def gc_node_body (env : NodeGcEnv) (phase off : Nat) : List GEvent :=
  if !env.validMap phase off then []
  else if phase = 0 then [GEvent.raNodePage (env.entryNid off)]
  else if !env.nodePageOk off then []
  else if !env.validMapAgain off then []
  else if !env.niAddrMatch off then []
  else [GEvent.processNode off]

/-- `gc_node_segment(sbi, sum, segno, gc_type)`. -/
def gc_node_segment (env : NodeGcEnv) (gcType : GcType) : MgOut :=
  let r := mg_phases gcType env.notEnough (gc_node_body env) env.blocksPerSeg [0, 1]
  if r.stopped then { nfree := 0, trace := r.trace, visited := r.visited }
  else if gcType = FG_GC then
    { nfree := if env.validAfter = 0 then 1 else 0,
      trace := r.trace ++ [GEvent.syncNodePages, GEvent.checkValidBlocks],
      visited := r.visited }
  else { nfree := 0, trace := r.trace, visited := r.visited }

/-- Oracles consumed by the data migrators (phases 0..3). -/
structure DataGcEnv where
  /-- `sbi->blocks_per_seg`. -/
  blocksPerSeg : Nat
  /-- `has_not_enough_free_secs(sbi, 0)` as evaluated at `(phase, off)`. -/
  notEnough : Nat → Nat → Bool
  /-- `check_valid_map(sbi, segno, off)` at the loop entry of `(phase, off)`. -/
  validMap : Nat → Nat → Bool
  /-- `le32_to_cpu(entry->nid)` per offset. -/
  entryNid : Nat → Nat
  /-- Outcome of `is_alive(...)` as evaluated at `(phase, off)`. -/
  aliveOk : Nat → Nat → Bool
  /-- `dni.ino` per offset. -/
  dniIno : Nat → Nat
  /-- Whether `f2fs_iget` succeeds and the inode is not bad (phase 2). -/
  igetOk : Nat → Bool
  /-- `f2fs_encrypted_inode(inode) && S_ISREG(inode->i_mode)`. -/
  encryptedReg : Nat → Bool
  /-- `PageUptodate(data_page)` in the phase-2 classification. -/
  pageUptodate : Nat → Bool
  /-- `PageDirty(data_page)` in the phase-2 classification. -/
  pageDirty : Nat → Bool
  /-- `IS_ERR(data_page)` for the phase-2 page fetch. -/
  dataPageErr : Nat → Bool
  /-- Whether `find_gc_inode(gc_list, dni.ino)` finds the inode in phase 3. -/
  inodeFound : Nat → Bool
  /-- `get_valid_blocks(sbi, segno, 1)` after the phases. -/
  validAfter : Nat

/-- The `array[off]` classification written by `gc_data_segment`'s phase 2
under `#ifdef EFFICIENT` (`1` dirty, `2` clean, `3` uncached, `0` untouched). -/
def eff_array (env : DataGcEnv) (off : Nat) : Nat :=
  if env.validMap 2 off ∧ env.aliveOk 2 off ∧ env.igetOk off ∧ !env.encryptedReg off then
    if env.pageUptodate off then (if env.pageDirty off then 1 else 2) else 3
  else 0

/-- Loop body of `gc_data_segment` (the `EFFICIENT` remap-aware variant). -/
def gc_data_body (env : DataGcEnv) (gcType : GcType) (phase off : Nat) : List GEvent :=
  if !env.validMap phase off then []
  else if phase = 0 then [GEvent.raNodePage (env.entryNid off)]
  else if !env.aliveOk phase off then []
  else if phase = 1 then [GEvent.raNodePage (env.dniIno off)]
  else if phase = 2 then
    if !env.igetOk off then []
    else if env.encryptedReg off then []
    else if env.dataPageErr off then []
    else [GEvent.classifyData off]
  else
    if !env.inodeFound off then []
    else if env.encryptedReg off then [GEvent.moveEncrypted off]
    else if eff_array env off = 1 ∨ gcType = BG_GC then [GEvent.moveData off]
    else [GEvent.changeData off]

/-- `gc_data_segment(sbi, sum, gc_list, segno, gc_type)`. -/
def gc_data_segment (env : DataGcEnv) (gcType : GcType) : MgOut :=
  let r := mg_phases gcType env.notEnough (gc_data_body env gcType)
             env.blocksPerSeg [0, 1, 2, 3]
  if r.stopped then { nfree := 0, trace := r.trace, visited := r.visited }
  else if gcType = FG_GC then
    { nfree := if env.validAfter = 0 then 1 else 0,
      trace := r.trace ++ [GEvent.submitMergedBio, GEvent.checkValidBlocks],
      visited := r.visited }
  else { nfree := 0, trace := r.trace, visited := r.visited }

/-- Loop body of `gc_data_segment_FG` (no remap classification; phase 3
always uses `move_data_page` for unencrypted inodes). -/
def gc_data_FG_body (env : DataGcEnv) (phase off : Nat) : List GEvent :=
  if !env.validMap phase off then []
  else if phase = 0 then [GEvent.raNodePage (env.entryNid off)]
  else if !env.aliveOk phase off then []
  else if phase = 1 then [GEvent.raNodePage (env.dniIno off)]
  else if phase = 2 then
    if !env.igetOk off then []
    else if env.encryptedReg off then []
    else if env.dataPageErr off then []
    else [GEvent.classifyData off]
  else
    if !env.inodeFound off then []
    else if env.encryptedReg off then [GEvent.moveEncrypted off]
    else [GEvent.moveData off]

/-- `gc_data_segment_FG(sbi, sum, gc_list, segno, gc_type)`. -/
def gc_data_segment_FG (env : DataGcEnv) (gcType : GcType) : MgOut :=
  let r := mg_phases gcType env.notEnough (gc_data_FG_body env)
             env.blocksPerSeg [0, 1, 2, 3]
  if r.stopped then { nfree := 0, trace := r.trace, visited := r.visited }
  else if gcType = FG_GC then
    { nfree := if env.validAfter = 0 then 1 else 0,
      trace := r.trace ++ [GEvent.submitMergedBio, GEvent.checkValidBlocks],
      visited := r.visited }
  else { nfree := 0, trace := r.trace, visited := r.visited }

/-- Modelled from the spec ("stop BG_GC if there is not enough free
sections"): the loop entries a background pass is expected to reach — in
each phase, the offsets up to the first one at which free sections are
insufficient; later phases run only if no phase was cut short. -/
def bg_visit_plan (notEnough : Nat → Nat → Bool) (B : Nat) :
    List Nat → List (Nat × Nat)
  | [] => []
  | ph :: rest =>
    let offs := (List.range B).takeWhile (fun o => !notEnough ph o)
    if offs.length = B then
      offs.map (fun o => (ph, o)) ++ bg_visit_plan notEnough B rest
    else offs.map (fun o => (ph, o))

/-- `-EINVAL`. -/
def EINVAL : Int := -22

/-- `-EAGAIN`. -/
def EAGAIN : Int := -11

/-- The per-round oracles of one `gc_more` iteration of `f2fs_gc`:
the flag tests at its top, the `__get_victim` outcomes, and the
`do_garbage_collect` result for each segment of the selected section.
`notEnoughPre`/`notEnoughPost` take the current `sec_freed`. -/
structure GcRound where
  /-- `sbi->sb->s_flags & MS_ACTIVE`. -/
  msActive : Bool
  /-- `f2fs_cp_error(sbi)`. -/
  cpError : Bool
  /-- `has_not_enough_free_secs(sbi, sec_freed)` at the escalation test. -/
  notEnoughPre : Nat → Bool
  /-- `__get_victim` outcome inside the BG→FG escalation branch. -/
  victimEsc : Option Nat
  /-- `prefree_segments(sbi)` at the escalation test. -/
  prefree : Nat
  /-- `__get_victim` outcome at the main selection test. -/
  victimMain : Option Nat
  /-- Whether `do_garbage_collect(sbi, segno + i, ...)` freed segment `i`. -/
  segFreed : Nat → Bool
  /-- `has_not_enough_free_secs(sbi, sec_freed)` at the bottom of the round. -/
  notEnoughPost : Nat → Bool

/-- The observable outcome of `f2fs_gc`. -/
structure GcOutcome where
  ret : Int
  secFreed : Nat
  /-- The `gc_type` local variable on exit. -/
  gcTypeFinal : GcType
  /-- Number of `write_checkpoint` calls from the escalation branch. -/
  preCps : Nat
  /-- Whether the post-pass `write_checkpoint` in the `!sync` branch ran. -/
  postCp : Bool
  roundsUsed : Nat
  /-- Whether the function exited through the `stop` label from a failed
  round (unmount, checkpoint error, or no victim). -/
  stopped : Bool
deriving DecidableEq

/-- The section loop `for (i = 0; i < segs_per_sec; i++)` of `f2fs_gc`:
returns the final value of `i` (on FG the loop breaks at the first segment
`do_garbage_collect` fails to free). -/
def seg_iter (freed : Nat → Bool) (gcType : GcType) : Nat → Nat → Nat
  | i, 0 => i
  | i, n + 1 =>
    if !freed i ∧ gcType = FG_GC then i else seg_iter freed gcType (i + 1) n

/-- The `gc_more` loop of `f2fs_gc`, consuming one `GcRound` per iteration
(`none` when the supplied round list runs out before the loop exits). -/
def f2fs_gc_loop (spsec : Nat) (sync : Bool) :
    List GcRound → GcType → Int → Nat → Nat → Nat → Option GcOutcome
  | [], _, _, _, _, _ => none
  | r :: rs, gcType, ret, secFreed, preCps, used =>
    if !r.msActive || r.cpError then
      some { ret := if sync then (if secFreed > 0 then 0 else EAGAIN) else ret,
             secFreed := secFreed, gcTypeFinal := gcType, preCps := preCps,
             postCp := false, roundsUsed := used + 1, stopped := true }
    else
      let esc := gcType = BG_GC ∧ r.notEnoughPre secFreed
      let gcType' := if esc then FG_GC else gcType
      let preCps' := if esc ∧ (r.victimEsc.isSome ∨ r.prefree > 0)
                     then preCps + 1 else preCps
      let segno := if esc then
                     (match r.victimEsc with
                      | some s => some s
                      | none => r.victimMain)
                   else r.victimMain
      match segno with
      | none =>
        some { ret := if sync then (if secFreed > 0 then 0 else EAGAIN) else ret,
               secFreed := secFreed, gcTypeFinal := gcType', preCps := preCps',
               postCp := false, roundsUsed := used + 1, stopped := true }
      | some _ =>
        let i := seg_iter r.segFreed gcType' 0 spsec
        let secFreed' := if i = spsec ∧ gcType' = FG_GC then secFreed + 1 else secFreed
        if sync then
          some { ret := if secFreed' > 0 then 0 else EAGAIN, secFreed := secFreed',
                 gcTypeFinal := gcType', preCps := preCps', postCp := false,
                 roundsUsed := used + 1, stopped := false }
        else if r.notEnoughPost secFreed' then
          f2fs_gc_loop spsec sync rs gcType' 0 secFreed' preCps' (used + 1)
        else
          some { ret := 0, secFreed := secFreed', gcTypeFinal := gcType',
                 preCps := preCps', postCp := gcType' = FG_GC,
                 roundsUsed := used + 1, stopped := false }

/-- `f2fs_gc(sbi, sync)`: `gc_type` starts as `FG_GC` exactly for `sync`,
and `ret` starts as `-EINVAL`. -/
def f2fs_gc (spsec : Nat) (sync : Bool) (rounds : List GcRound) : Option GcOutcome :=
  f2fs_gc_loop spsec sync rounds (if sync then FG_GC else BG_GC) EINVAL 0 0 0

/-- Whether one round of `f2fs_gc`, entered with the given `gc_type` and
`sec_freed`, selects a victim (counting the escalation branch's selection). -/
def round_finds_victim (r : GcRound) (gcType : GcType) (secFreed : Nat) : Bool :=
  if gcType = BG_GC ∧ r.notEnoughPre secFreed then
    (match r.victimEsc with
     | some _ => true
     | none => r.victimMain.isSome)
  else r.victimMain.isSome

/-- Whether the first round of a `!sync` call exits through `stop` without
selecting a victim. -/
def round1_aborts (r : GcRound) : Bool :=
  !r.msActive || r.cpError || !(round_finds_victim r BG_GC 0)

/-- Lines 80-82 of `gc_thread_func`: after `f2fs_gc(sbi, ...)` returns a
nonzero value (no victim was selected), the next sleep becomes
`gc_th->no_gc_sleep_time`. -/
def gc_thread_wait_after_gc (noGcSleepTime : Nat) (gcRet : Int) (waitMs : Nat) : Nat :=
  if gcRet ≠ 0 then noGcSleepTime else waitMs

/-- A baseline `Sbi` for concrete scenarios (`B = 8`, one segment per
section, 30 main segments, all oracle maps empty). -/
def sbiBase : Sbi := {
  logBlocksPerSeg := 3, segsPerSec := 1, maxVictimSearch := 10, mainSegs := 30,
  gcIdle := none,
  dirtySegmap := fun _ _ => false,
  nrDirty := fun _ => 0,
  victimSecmap := fun _ => false, secUsage := fun _ => false,
  segMtime := fun _ => 0, segCkptValid := fun _ => 0,
  validBlocks := fun _ _ => 0,
  lastVictim := fun _ => 0,
  curVictimSec := none, minMtime := 0, maxMtime := 0 }

/-- A two-segment section (`segs_per_sec = 2`, `B = 8`) whose segments both
carry mtime 100, with 7 valid blocks in the section and SIT mtime range
`[0, 1000]` — the instance on which `get_cb_cost` differs from the
specification's formula. -/
def sbiCb : Sbi := { sbiBase with
  segsPerSec := 2,
  segMtime := fun _ => 100,
  validBlocks := fun _ _ => 7,
  minMtime := 0, maxMtime := 1000 }

/-- A single-segment-section `Sbi` with the given blocks-per-segment
exponent, constant per-section valid count, constant segment mtime, and SIT
mtime range, for stating facts about `get_cb_cost` at varying mtimes. -/
def mkCbSbi (L v m minM maxM : Nat) : Sbi := { sbiBase with
  logBlocksPerSeg := L,
  segMtime := fun _ => m,
  validBlocks := fun _ _ => v,
  minMtime := minM, maxMtime := maxM }

/-- Scenario 4 of the spec: `last_victim[Greedy] = 17`, dirty bits `{5, 20}`
with greedy costs 4 and 2, greedy mode forced through `gc_idle = 2`. -/
def sbiWrap : Sbi := { sbiBase with
  gcIdle := some 2,
  dirtySegmap := fun t s => t == DIRTY && (s == 5 || s == 20),
  nrDirty := fun t => if t = DIRTY then 2 else 0,
  validBlocks := fun s _ => if s = 5 then 2 else if s = 20 then 4 else 0,
  lastVictim := fun m => if m = GC_GREEDY then 17 else 0 }

/-- Scenario 3 of the spec: one dirty, fully-valid (8 of 8 blocks) section
under greedy mode. -/
def sbiFull : Sbi := { sbiBase with
  gcIdle := some 2,
  dirtySegmap := fun t s => t == DIRTY && s == 4,
  nrDirty := fun t => if t = DIRTY then 1 else 0,
  validBlocks := fun s _ => if s = 4 then 8 else 0 }

/-- Three dirty segments but `max_victim_search = 1`: the scan cost-examines
two candidates before the `nsearched++ >= max_search` break fires. -/
def sbiCap : Sbi := { sbiBase with
  maxVictimSearch := 1,
  gcIdle := some 2,
  dirtySegmap := fun t s => t == DIRTY && (s == 2 || s == 5 || s == 9),
  nrDirty := fun t => if t = DIRTY then 3 else 0,
  validBlocks := fun s _ => if s = 2 then 5 else if s = 5 then 3 else 4 }

/-- An `Sbi` with an empty dirty set (`nr_dirty = 0`) but a usable reserved
section 3 in `victim_secmap`. -/
def sbiNoDirty : Sbi := { sbiBase with
  victimSecmap := fun s => s == 3 }

/-- An `Sbi` with a nonempty dirty set and a usable reserved section 3, so
the `LFS`/`FG_GC` fast path fires. -/
def sbiFast : Sbi := { sbiBase with
  dirtySegmap := fun t s => t == DIRTY && s == 7,
  nrDirty := fun t => if t = DIRTY then 1 else 0,
  victimSecmap := fun s => s == 3 }

/-- The victim policy of the scenario-4 scan. -/
def pWrap : VictimPolicy := select_policy sbiWrap BG_GC 0 LFS

/-- The scenario-4 scan of `get_victim_by_default`, run directly. -/
def scanWrap : Option (ScanState × ScanExit) :=
  scan_loop BG_GC pWrap 8 64
    { offset := pWrap.offset, lastSegment := sbiWrap.mainSegs, nsearched := 0,
      minSegno := none, minCost := 8, sbi := sbiWrap, visited := [] }

/-- The fast-path call on `sbiFast`. -/
def victimFast : Option VictimOut := get_victim_by_default sbiFast FG_GC 0 LFS

/-- The victim policy of the capped scan on `sbiCap`. -/
def pCap : VictimPolicy := select_policy sbiCap BG_GC 0 LFS

/-- The capped scan of `get_victim_by_default` on `sbiCap`, run directly. -/
def scanCap : Option (ScanState × ScanExit) :=
  scan_loop BG_GC pCap 8 64
    { offset := pCap.offset, lastSegment := sbiCap.mainSegs, nsearched := 0,
      minSegno := none, minCost := 8, sbi := sbiCap, visited := [] }

/-- A round of `f2fs_gc` that selects victim 9 and frees every segment. -/
def roundOk : GcRound := {
  msActive := true, cpError := false, notEnoughPre := fun _ => false,
  victimEsc := none, prefree := 0, victimMain := some 9, segFreed := fun _ => true,
  notEnoughPost := fun _ => false }

/-- The same round observed while the filesystem is unmounting. -/
def roundUnmount : GcRound := { roundOk with msActive := false }

/-- A healthy round in which no victim is selectable. -/
def roundNoVictim : GcRound := { roundOk with victimMain := none }

/-- A round entered with too few free sections, triggering BG→FG escalation. -/
def roundEsc : GcRound := { roundOk with notEnoughPre := fun _ => true }

/-- Outcome of `f2fs_gc 2 true [roundOk]`. -/
def outSyncOk : GcOutcome := {
  ret := 0, secFreed := 1, gcTypeFinal := FG_GC, preCps := 0, postCp := false,
  roundsUsed := 1, stopped := false }

/-- Outcome of `f2fs_gc 2 false [roundNoVictim]`. -/
def outBgNoVictim : GcOutcome := {
  ret := EINVAL, secFreed := 0, gcTypeFinal := BG_GC, preCps := 0, postCp := false,
  roundsUsed := 1, stopped := true }

/-- Outcome of `f2fs_gc 2 false [roundEsc]`. -/
def outBgEsc : GcOutcome := {
  ret := 0, secFreed := 1, gcTypeFinal := FG_GC, preCps := 0, postCp := true,
  roundsUsed := 1, stopped := false }

/-- A 4-block node-segment environment: free sections always sufficient,
block 2 invalid, everything else live and in place, and the segment fully
invalidated by the end (`validAfter = 0`). -/
def envNode : NodeGcEnv := {
  blocksPerSeg := 4, notEnough := fun _ _ => false,
  validMap := fun _ o => o != 2, entryNid := fun o => o + 100,
  nodePageOk := fun _ => true, validMapAgain := fun _ => true,
  niAddrMatch := fun _ => true, validAfter := 0 }

/-- A 3-block data-segment environment with one encrypted offset and one
dirty cached page, fully invalidated by the end. -/
def envData : DataGcEnv := {
  blocksPerSeg := 3, notEnough := fun _ _ => false,
  validMap := fun _ _ => true, entryNid := fun o => o + 100,
  aliveOk := fun _ _ => true, dniIno := fun o => o + 200,
  igetOk := fun _ => true, encryptedReg := fun o => o == 1,
  pageUptodate := fun _ => true, pageDirty := fun o => o == 0,
  dataPageErr := fun _ => false, inodeFound := fun _ => true, validAfter := 0 }

/-- A node page whose slot 4 holds block address 1005. -/
def pageW : NodePage := { ofsOfNode := 9, datablockAddr := fun o => if o = 4 then 1005 else 0 }

/-- A node layer in which nid 42 resolves to `pageW` with version 7. -/
def nodeEnvW : NodeEnv := {
  getNodePage := fun n => if n = 42 then some pageW else none,
  getNodeInfo := fun _ => { version := 7, blkAddr := 1005, ino := 3 } }

/-- A summary entry naming nid 42, version 7, slot 4. -/
def sumW : SummaryEntry := { nid := 42, version := 7, ofsInNode := 4 }

/-! Theorems.  Each claim `Cn` of the specification is settled by one
theorem (plus, where needed, a counterexample and a witness instance). -/

theorem two_pow_32 : (2 : Nat) ^ 32 = 4294967296 := by norm_num

theorem sub32_of_le {a b : Nat} (hba : b ≤ a) (ha : a < 2 ^ 32) :
    sub32 a b = a - b := by
  unfold sub32
  rw [two_pow_32] at ha ⊢
  omega

/-- C7: `is_alive` reports live exactly when the node page for `E.nid` reads
successfully, the node-table version matches `E.version`, and the address at
slot `E.ofs_in_node` equals `SA + k`; on a live report it outputs
`nofs = ofs_of_node` of that page. -/
theorem C7_is_alive (env : NodeEnv) (sum : SummaryEntry) (SA k : Nat) :
    ((is_alive env sum (SA + k)).1 = true ↔
      ∃ nodePage, env.getNodePage sum.nid = some nodePage ∧
        sum.version = (env.getNodeInfo sum.nid).version ∧
        nodePage.datablockAddr sum.ofsInNode = SA + k) ∧
    (∀ nodePage, env.getNodePage sum.nid = some nodePage →
      (is_alive env sum (SA + k)).1 = true →
      (is_alive env sum (SA + k)).2 = some nodePage.ofsOfNode) := by
  constructor
  · cases h : env.getNodePage sum.nid with
    | none => simp [is_alive, h]
    | some page =>
      simp only [is_alive, h]
      by_cases hv : sum.version = (env.getNodeInfo sum.nid).version
      · by_cases haddr : page.datablockAddr sum.ofsInNode = SA + k
        · simp [hv, haddr]
        · simp [hv, haddr]
      · simp [hv]
  · intro page hp halive
    cases h : env.getNodePage sum.nid with
    | none => rw [h] at hp; exact absurd hp (by simp)
    | some page' =>
      rw [h] at hp
      cases hp
      simp only [is_alive, h] at halive ⊢
      by_cases hv : sum.version = (env.getNodeInfo sum.nid).version
      · by_cases haddr : page.datablockAddr sum.ofsInNode = SA + k
        · simp [hv, haddr]
        · simp [hv, haddr] at halive
      · simp [hv] at halive

/-- Witness for C7 at a concrete node layer: nid 42, version 7, slot 4
holding address `1000 + 5`. -/
theorem C7_is_alive_witness :
    (is_alive nodeEnvW sumW (1000 + 5)).1 = true ∧
    (is_alive nodeEnvW sumW (1000 + 5)).2 = some pageW.ofsOfNode :=
  ⟨(C7_is_alive nodeEnvW sumW 1000 5).1.mpr ⟨pageW, rfl, by decide, by decide⟩,
   (C7_is_alive nodeEnvW sumW 1000 5).2 pageW rfl
     ((C7_is_alive nodeEnvW sumW 1000 5).1.mpr ⟨pageW, rfl, by decide, by decide⟩)⟩

theorem start_bidx_mid (N APB A ofs : Nat) (hN : 2 ≤ N) (hNb : N < 2 ^ 12)
    (hAPB : APB < 2 ^ 12) (hA : A < 2 ^ 20) (hofs : ofs ≤ 2 ^ 20)
    (h4 : 4 ≤ ofs) (hle : ofs ≤ 2 * N + 4) :
    start_bidx_of_node N APB A ofs = A + APB * (ofs - 2 - (ofs - 4) / (N + 1)) := by
  have h20 : (2 : Nat) ^ 20 = 1048576 := by norm_num
  have h12 : (2 : Nat) ^ 12 = 4096 := by norm_num
  rw [h20] at hA hofs
  rw [h12] at hAPB hNb
  have hofs32 : ofs < 2 ^ 32 := by rw [two_pow_32]; omega
  have hs4 : sub32 ofs 4 = ofs - 4 := sub32_of_le (by omega) hofs32
  have hs2 : sub32 ofs 2 = ofs - 2 := sub32_of_le (by omega) hofs32
  simp only [start_bidx_of_node]
  rw [if_neg (by omega), if_neg (by omega), if_pos (by omega)]
  rw [hs4, hs2]
  generalize hd : (ofs - 4) / (N + 1) = d
  have hdec : d ≤ ofs - 4 := hd ▸ Nat.div_le_self _ _
  have hsd : sub32 (ofs - 2) d = ofs - 2 - d :=
    sub32_of_le (by omega) (by rw [two_pow_32]; omega)
  rw [hsd]
  have hbidx : ofs - 2 - d ≤ 1048576 := by omega
  have hmul : (ofs - 2 - d) * APB ≤ 1048576 * 4095 :=
    Nat.mul_le_mul hbidx (by omega)
  rw [Nat.mod_eq_of_lt (by rw [two_pow_32]; omega), Nat.mul_comm]
  exact Nat.add_comm _ _

theorem start_bidx_high (N APB A ofs : Nat) (hN : 2 ≤ N) (hNb : N < 2 ^ 12)
    (hAPB : APB < 2 ^ 12) (hA : A < 2 ^ 20) (hofs : ofs ≤ 2 ^ 20)
    (h7 : 2 * N + 7 ≤ ofs) :
    start_bidx_of_node N APB A ofs =
      A + APB * (ofs - 5 - (ofs - (2 * N + 4) - 3) / (N + 1)) := by
  have h20 : (2 : Nat) ^ 20 = 1048576 := by norm_num
  have h12 : (2 : Nat) ^ 12 = 4096 := by norm_num
  rw [h20] at hA hofs
  rw [h12] at hAPB hNb
  have hofs32 : ofs < 2 ^ 32 := by rw [two_pow_32]; omega
  have hsib : sub32 ofs (2 * N + 4) = ofs - (2 * N + 4) := sub32_of_le (by omega) hofs32
  have hs3 : sub32 (ofs - (2 * N + 4)) 3 = ofs - (2 * N + 4) - 3 :=
    sub32_of_le (by omega) (by rw [two_pow_32]; omega)
  have hs5 : sub32 ofs 5 = ofs - 5 := sub32_of_le (by omega) hofs32
  simp only [start_bidx_of_node]
  rw [if_neg (by omega), if_neg (by omega), if_neg (by omega)]
  rw [hsib, hs3, hs5]
  generalize hd : (ofs - (2 * N + 4) - 3) / (N + 1) = d
  have hdec : d ≤ ofs - (2 * N + 4) - 3 := hd ▸ Nat.div_le_self _ _
  have hsd : sub32 (ofs - 5) d = ofs - 5 - d :=
    sub32_of_le (by omega) (by rw [two_pow_32]; omega)
  rw [hsd]
  have hbidx : ofs - 5 - d ≤ 1048576 := by omega
  have hmul : (ofs - 5 - d) * APB ≤ 1048576 * 4095 :=
    Nat.mul_le_mul hbidx (by omega)
  rw [Nat.mod_eq_of_lt (by rw [two_pow_32]; omega), Nat.mul_comm]
  exact Nat.add_comm _ _

/-- C8: for every direct-node offset (within the in-range bounds of the
on-disk node tree), `start_bidx_of_node` returns the inode's
addresses-per-inode plus `ADDRS_PER_BLOCK` times the node-relative index of
the specification's case analysis (with result 0 for `node_ofs = 0`). -/
theorem C8_start_bidx (N APB A ofs : Nat) (hN : 2 ≤ N) (hNb : N < 2 ^ 12)
    (hAPB : APB < 2 ^ 12) (hA : A < 2 ^ 20) (hofs : ofs ≤ 2 ^ 20)
    (hdirect : isDirectNodeOfs N ofs) :
    start_bidx_of_node N APB A ofs =
      if ofs = 0 then 0
      else if ofs ≤ 2 then A + APB * (ofs - 1)
      else if ofs ≤ 2 * N + 4 then A + APB * (ofs - 2 - (ofs - 4) / (N + 1))
      else A + APB * (ofs - 5 - (ofs - (2 * N + 4) - 3) / (N + 1)) := by
  have h20 : (2 : Nat) ^ 20 = 1048576 := by norm_num
  have h12 : (2 : Nat) ^ 12 = 4096 := by norm_num
  rcases hdirect with h0 | h1 | h2 | ⟨ha4, hb4⟩ | ⟨ha5, hb5⟩ | ⟨ha7, _⟩
  · subst h0; simp [start_bidx_of_node]
  · subst h1
    rw [if_neg (by omega), if_pos (by omega)]
    unfold start_bidx_of_node
    rw [if_neg (by omega), if_pos (by omega)]
    have hs : sub32 1 1 = 0 := sub32_of_le (le_refl 1) (by rw [two_pow_32]; omega)
    rw [hs]
    rw [Nat.mod_eq_of_lt (by rw [two_pow_32]; omega)]
    omega
  · subst h2
    rw [if_neg (by omega), if_pos (by omega)]
    unfold start_bidx_of_node
    rw [if_neg (by omega), if_pos (by omega)]
    have hs : sub32 2 1 = 1 := sub32_of_le (by omega) (by rw [two_pow_32]; omega)
    rw [hs]
    rw [Nat.mod_eq_of_lt (by rw [two_pow_32]; omega)]
    omega
  · rw [if_neg (by omega), if_neg (by omega), if_pos (by omega)]
    exact start_bidx_mid N APB A ofs hN hNb hAPB hA hofs (by omega) (by omega)
  · rw [if_neg (by omega), if_neg (by omega), if_pos (by omega)]
    exact start_bidx_mid N APB A ofs hN hNb hAPB hA hofs (by omega) (by omega)
  · rw [if_neg (by omega), if_neg (by omega), if_neg (by omega)]
    exact start_bidx_high N APB A ofs hN hNb hAPB hA hofs (by omega)

/-- Witness for C8 at the real f2fs constants (`N = APB = 1018`, `A = 923`)
and the direct node offset 7. -/
theorem C8_start_bidx_witness :
    start_bidx_of_node 1018 1018 923 7 =
      if (7 : Nat) = 0 then 0
      else if (7 : Nat) ≤ 2 then 923 + 1018 * (7 - 1)
      else if (7 : Nat) ≤ 2 * 1018 + 4 then 923 + 1018 * (7 - 2 - (7 - 4) / (1018 + 1))
      else 923 + 1018 * (7 - 5 - (7 - (2 * 1018 + 4) - 3) / (1018 + 1)) :=
  C8_start_bidx 1018 1018 923 7 (by norm_num) (by norm_num) (by norm_num)
    (by norm_num) (by norm_num) (by right; right; right; left; omega)

theorem cb_cost_mk (L v m minM maxM : Nat) (hmin : minM ≤ m) (hmax : m ≤ maxM) :
    (get_cb_cost (mkCbSbi L v m minM maxM) 0).1 =
      UINT_MAX - 100 * (100 - v * 100 / 2 ^ L % 256) *
        (if maxM ≠ minM then 100 - 100 * (m - minM) / (maxM - minM) else 0) /
        (100 + v * 100 / 2 ^ L % 256) := by
  simp only [get_cb_cost, mkCbSbi, sbiBase, getSecno, Nat.div_one, Nat.mul_one,
    show List.range 1 = [0] from rfl, List.map_cons, List.map_nil, List.sum_cons,
    List.sum_nil, Nat.add_zero]
  have hmin' : (if m < minM then m else minM) = minM := if_neg (by omega)
  have hmax' : (if m > maxM then m else maxM) = maxM := if_neg (by omega)
  rw [hmin', hmax']

/-- C1 (amended): `get_cb_cost` evaluates the specification's formula on the
per-segment averages — for a single-segment section (`segs_per_sec = 1`, with
the SIT window already containing the segment's mtime) it is exactly
`specCbCost` with `u = (100·valid)/B`; the cost never decreases as the mtime
grows (older sections cost no more, utilization and window equal); and in the
spec's tie-break scenario (equal valid counts, window `[100, 900]`, mtimes
120 vs 800) the older section's cost is strictly lower. -/
theorem C1_cb_cost :
    (∀ sbi segno, sbi.segsPerSec = 1 →
      sbi.validBlocks segno 1 ≤ 2 ^ sbi.logBlocksPerSeg →
      sbi.minMtime ≤ sbi.segMtime segno → sbi.segMtime segno ≤ sbi.maxMtime →
      (get_cb_cost sbi segno).1 =
        specCbCost (2 ^ sbi.logBlocksPerSeg) (sbi.validBlocks segno 1)
          (sbi.segMtime segno) sbi.minMtime sbi.maxMtime) ∧
    (∀ L v minM maxM m1 m2, minM ≤ m1 → m1 ≤ m2 → m2 ≤ maxM →
      (get_cb_cost (mkCbSbi L v m1 minM maxM) 0).1 ≤
        (get_cb_cost (mkCbSbi L v m2 minM maxM) 0).1) ∧
    ((get_cb_cost (mkCbSbi 3 3 120 100 900) 0).1 <
      (get_cb_cost (mkCbSbi 3 3 800 100 900) 0).1) := by
  refine ⟨?_, ?_, by decide⟩
  · intro sbi segno hS hv hmin hmax
    have hpos : 0 < 2 ^ sbi.logBlocksPerSeg := pow_pos (by norm_num) _
    have hu : sbi.validBlocks segno 1 * 100 / 2 ^ sbi.logBlocksPerSeg ≤ 100 := by
      calc sbi.validBlocks segno 1 * 100 / 2 ^ sbi.logBlocksPerSeg
          ≤ 2 ^ sbi.logBlocksPerSeg * 100 / 2 ^ sbi.logBlocksPerSeg :=
            Nat.div_le_div_right (Nat.mul_le_mul_right 100 hv)
        _ = 100 := Nat.mul_div_cancel_left 100 hpos
    simp only [get_cb_cost, specCbCost, hS, getSecno, Nat.div_one, Nat.mul_one,
      show List.range 1 = [0] from rfl, List.map_cons, List.map_nil, List.sum_cons,
      List.sum_nil, Nat.add_zero]
    rw [Nat.mod_eq_of_lt (lt_of_le_of_lt hu (by norm_num))]
    have hmin' : (if sbi.segMtime segno < sbi.minMtime then sbi.segMtime segno
        else sbi.minMtime) = sbi.minMtime := if_neg (by omega)
    have hmax' : (if sbi.segMtime segno > sbi.maxMtime then sbi.segMtime segno
        else sbi.maxMtime) = sbi.maxMtime := if_neg (by omega)
    rw [hmin', hmax']
    rw [Nat.mul_comm (sbi.validBlocks segno 1) 100]
    by_cases heq : sbi.maxMtime = sbi.minMtime
    · simp [heq]
    · simp [heq]
  · intro L v minM maxM m1 m2 h1 h12 h2
    rw [cb_cost_mk L v m1 minM maxM h1 (le_trans h12 h2),
        cb_cost_mk L v m2 minM maxM (le_trans h1 h12) h2]
    by_cases heq : maxM = minM
    · simp [heq]
    · rw [if_pos heq, if_pos heq]
      have hq : 100 * (m1 - minM) / (maxM - minM) ≤ 100 * (m2 - minM) / (maxM - minM) :=
        Nat.div_le_div_right (Nat.mul_le_mul_left 100 (Nat.sub_le_sub_right h12 minM))
      have hage : 100 - 100 * (m2 - minM) / (maxM - minM) ≤
          100 - 100 * (m1 - minM) / (maxM - minM) := Nat.sub_le_sub_left hq 100
      exact Nat.sub_le_sub_left
        (Nat.div_le_div_right (Nat.mul_le_mul_left _ hage)) UINT_MAX

/-- Counterexample to C1 as stated: on a two-segment section (7 valid blocks,
both segment mtimes 100, SIT window `[0, 1000]`), `get_cb_cost` differs from
the specification's formula, whether `B` is read as the blocks of one segment
or of the whole section — the code first divides the section's valid count
and summed mtime by `segs_per_sec`. -/
theorem C1_cb_cost_counterexample :
    (get_cb_cost sbiCb 0).1 ≠
      specCbCost (2 ^ sbiCb.logBlocksPerSeg) (sbiCb.validBlocks 0 sbiCb.segsPerSec)
        (sbiCb.segMtime 0) sbiCb.minMtime sbiCb.maxMtime ∧
    (get_cb_cost sbiCb 0).1 ≠
      specCbCost (2 ^ sbiCb.logBlocksPerSeg * sbiCb.segsPerSec)
        (sbiCb.validBlocks 0 sbiCb.segsPerSec)
        (sbiCb.segMtime 0) sbiCb.minMtime sbiCb.maxMtime := by
  constructor
  · decide
  · decide

/-- Witness for C1 at a concrete single-segment section. -/
theorem C1_cb_cost_witness :
    (get_cb_cost (mkCbSbi 3 3 120 100 900) 0).1 =
      specCbCost (2 ^ (mkCbSbi 3 3 120 100 900).logBlocksPerSeg)
        ((mkCbSbi 3 3 120 100 900).validBlocks 0 1)
        ((mkCbSbi 3 3 120 100 900).segMtime 0)
        (mkCbSbi 3 3 120 100 900).minMtime (mkCbSbi 3 3 120 100 900).maxMtime ∧
    (get_cb_cost (mkCbSbi 3 3 120 100 900) 0).1 ≤
      (get_cb_cost (mkCbSbi 3 3 800 100 900) 0).1 :=
  ⟨C1_cb_cost.1 (mkCbSbi 3 3 120 100 900) 0 rfl (by decide) (by decide) (by decide),
   C1_cb_cost.2.1 3 3 100 900 120 800 (by decide) (by decide) (by decide)⟩

theorem mg_loop_fg_stopped (ne : Nat → Bool) (body : Nat → List GEvent) (ph : Nat) :
    ∀ offs : List Nat, (mg_loop FG_GC ne body ph offs).stopped = false := by
  intro offs
  induction offs with
  | nil => rfl
  | cons o rest ih =>
    simp only [mg_loop]
    rw [if_neg (by simp)]
    exact ih

theorem mg_phases_fg_stopped (ne : Nat → Nat → Bool) (body : Nat → Nat → List GEvent)
    (B : Nat) : ∀ phs : List Nat, (mg_phases FG_GC ne body B phs).stopped = false := by
  intro phs
  induction phs with
  | nil => rfl
  | cons ph rest ih =>
    simp only [mg_phases]
    rw [if_neg (by simp [mg_loop_fg_stopped])]
    exact ih

theorem mg_loop_bg_stopped (ne : Nat → Bool) (body : Nat → List GEvent) (ph : Nat) :
    ∀ offs : List Nat, (mg_loop BG_GC ne body ph offs).stopped = offs.any ne := by
  intro offs
  induction offs with
  | nil => rfl
  | cons o rest ih =>
    simp only [mg_loop, List.any_cons]
    by_cases h : ne o
    · rw [if_pos (by simp [h])]
      simp [h]
    · rw [if_neg (by simp [h])]
      simp [h, ih]

theorem mg_loop_bg_visited (ne : Nat → Bool) (body : Nat → List GEvent) (ph : Nat) :
    ∀ offs : List Nat, (mg_loop BG_GC ne body ph offs).visited =
      (offs.takeWhile (fun o => !ne o)).map (fun o => (ph, o)) := by
  intro offs
  induction offs with
  | nil => rfl
  | cons o rest ih =>
    simp only [mg_loop, List.takeWhile_cons]
    by_cases h : ne o
    · rw [if_pos (by simp [h])]
      simp [h]
    · rw [if_neg (by simp [h])]
      simp [h, ih]

theorem takeWhile_length_iff (ne : Nat → Bool) :
    ∀ l : List Nat, ((l.takeWhile (fun o => !ne o)).length = l.length ↔ l.any ne = false) := by
  intro l
  induction l with
  | nil => simp
  | cons o rest ih =>
    by_cases h : ne o
    · have ht : (o :: rest).takeWhile (fun o => !ne o) = [] := by
        simp [List.takeWhile_cons, h]
      rw [ht]
      simp only [List.length_nil, List.length_cons, List.any_cons, h, Bool.true_or]
      exact iff_of_false (by omega) (by simp)
    · have h' : ne o = false := by simp [h]
      have ht : (o :: rest).takeWhile (fun o => !ne o) =
          o :: rest.takeWhile (fun o => !ne o) := by
        simp [List.takeWhile_cons, h']
      rw [ht]
      simp only [List.length_cons, List.any_cons, h', Bool.false_or]
      constructor
      · intro hlen
        exact ih.mp (by omega)
      · intro hany
        have := ih.mpr hany
        omega

theorem mg_phases_bg_visited (ne : Nat → Nat → Bool) (body : Nat → Nat → List GEvent)
    (B : Nat) : ∀ phs : List Nat,
      (mg_phases BG_GC ne body B phs).visited = bg_visit_plan ne B phs := by
  intro phs
  induction phs with
  | nil => rfl
  | cons ph rest ih =>
    simp only [mg_phases, bg_visit_plan]
    cases hstop : (mg_loop BG_GC (ne ph) (body ph) ph (List.range B)).stopped with
    | true =>
      rw [if_pos rfl]
      have hany : (List.range B).any (ne ph) = true := by
        rw [← mg_loop_bg_stopped (ne ph) (body ph) ph (List.range B)]; exact hstop
      have hlen : ¬ (((List.range B).takeWhile (fun o => !ne ph o)).length = B) := by
        intro hl
        have := (takeWhile_length_iff (ne ph) (List.range B)).mp
          (by rw [hl, List.length_range])
        rw [this] at hany
        exact Bool.false_ne_true hany
      rw [if_neg hlen]
      exact mg_loop_bg_visited (ne ph) (body ph) ph (List.range B)
    | false =>
      rw [if_neg Bool.false_ne_true]
      have hany : (List.range B).any (ne ph) = false := by
        rw [← mg_loop_bg_stopped (ne ph) (body ph) ph (List.range B)]; exact hstop
      have hlen : ((List.range B).takeWhile (fun o => !ne ph o)).length = B := by
        have := (takeWhile_length_iff (ne ph) (List.range B)).mpr hany
        rw [List.length_range] at this
        exact this
      rw [if_pos hlen]
      rw [mg_loop_bg_visited (ne ph) (body ph) ph (List.range B), ih]

/-- C9 (amended): a per-segment migration call returns 1 (a freed segment)
exactly when it runs in foreground mode and the segment's live-block count is
zero after migration — a background call always returns 0 — and the FG data
path submits the merged write bio immediately before that final check. -/
theorem C9_migrator_success :
    (∀ (env : NodeGcEnv) (gcType : GcType), (gc_node_segment env gcType).nfree = 1 ↔
       gcType = FG_GC ∧ env.validAfter = 0) ∧
    (∀ (env : DataGcEnv) (gcType : GcType), (gc_data_segment env gcType).nfree = 1 ↔
       gcType = FG_GC ∧ env.validAfter = 0) ∧
    (∀ env : DataGcEnv, ∃ t, (gc_data_segment env FG_GC).trace =
       t ++ [GEvent.submitMergedBio, GEvent.checkValidBlocks]) := by
  refine ⟨?_, ?_, ?_⟩
  · intro env gcType
    cases gcType with
    | FG_GC =>
      have hst := mg_phases_fg_stopped env.notEnough (gc_node_body env) env.blocksPerSeg [0, 1]
      by_cases hv : env.validAfter = 0 <;> simp [gc_node_segment, hst, hv]
    | BG_GC =>
      cases h : (mg_phases BG_GC env.notEnough (gc_node_body env) env.blocksPerSeg
          [0, 1]).stopped <;> simp [gc_node_segment, h]
  · intro env gcType
    cases gcType with
    | FG_GC =>
      have hst := mg_phases_fg_stopped env.notEnough (gc_data_body env FG_GC)
        env.blocksPerSeg [0, 1, 2, 3]
      by_cases hv : env.validAfter = 0 <;> simp [gc_data_segment, hst, hv]
    | BG_GC =>
      cases h : (mg_phases BG_GC env.notEnough (gc_data_body env BG_GC) env.blocksPerSeg
          [0, 1, 2, 3]).stopped <;> simp [gc_data_segment, h]
  · intro env
    have hst := mg_phases_fg_stopped env.notEnough (gc_data_body env FG_GC)
      env.blocksPerSeg [0, 1, 2, 3]
    by_cases hv : env.validAfter = 0 <;> simp [gc_data_segment, hst, hv]

/-- Counterexample to C9 as stated: background calls whose segment ends with
zero live blocks still return 0, not success. -/
theorem C9_migrator_counterexample :
    (gc_node_segment envNode BG_GC).nfree = 0 ∧ envNode.validAfter = 0 ∧
    (gc_data_segment envData BG_GC).nfree = 0 ∧ envData.validAfter = 0 := by
  refine ⟨by decide, rfl, by decide, rfl⟩

/-- Witness for C9: the same environments under FG_GC do report success. -/
theorem C9_migrator_witness :
    (gc_node_segment envNode FG_GC).nfree = 1 ∧
    (gc_data_segment envData FG_GC).nfree = 1 :=
  ⟨(C9_migrator_success.1 envNode FG_GC).mpr ⟨rfl, rfl⟩,
   (C9_migrator_success.2.1 envData FG_GC).mpr ⟨rfl, rfl⟩⟩

/-- C10: in background mode every migrator re-evaluates the free-sections
check at each loop entry and stops the whole call at the first insufficient
point: the visited `(phase, offset)` entries are exactly the planned prefix,
and the call returns 0. -/
theorem C10_bg_free_secs_stop :
    (∀ env : NodeGcEnv, (gc_node_segment env BG_GC).nfree = 0 ∧
       (gc_node_segment env BG_GC).visited =
         bg_visit_plan env.notEnough env.blocksPerSeg [0, 1]) ∧
    (∀ env : DataGcEnv, (gc_data_segment env BG_GC).nfree = 0 ∧
       (gc_data_segment env BG_GC).visited =
         bg_visit_plan env.notEnough env.blocksPerSeg [0, 1, 2, 3]) ∧
    (∀ env : DataGcEnv, (gc_data_segment_FG env BG_GC).nfree = 0 ∧
       (gc_data_segment_FG env BG_GC).visited =
         bg_visit_plan env.notEnough env.blocksPerSeg [0, 1, 2, 3]) := by
  refine ⟨?_, ?_, ?_⟩
  · intro env
    have hv := mg_phases_bg_visited env.notEnough (gc_node_body env) env.blocksPerSeg [0, 1]
    cases h : (mg_phases BG_GC env.notEnough (gc_node_body env) env.blocksPerSeg
        [0, 1]).stopped <;> simp [gc_node_segment, h, hv]
  · intro env
    have hv := mg_phases_bg_visited env.notEnough (gc_data_body env BG_GC)
      env.blocksPerSeg [0, 1, 2, 3]
    cases h : (mg_phases BG_GC env.notEnough (gc_data_body env BG_GC) env.blocksPerSeg
        [0, 1, 2, 3]).stopped <;> simp [gc_data_segment, h, hv]
  · intro env
    have hv := mg_phases_bg_visited env.notEnough (gc_data_FG_body env)
      env.blocksPerSeg [0, 1, 2, 3]
    cases h : (mg_phases BG_GC env.notEnough (gc_data_FG_body env) env.blocksPerSeg
        [0, 1, 2, 3]).stopped <;> simp [gc_data_segment_FG, h, hv]

theorem f2fs_gc_loop_ret_zero (spsec : Nat) :
    ∀ (rounds : List GcRound) (gcType : GcType) (secFreed preCps used : Nat)
      (out : GcOutcome),
      f2fs_gc_loop spsec false rounds gcType 0 secFreed preCps used = some out →
      out.ret = 0 := by
  intro rounds
  induction rounds with
  | nil =>
    intro gcType secFreed preCps used out h
    exact absurd h (by simp [f2fs_gc_loop])
  | cons r rs ih =>
    intro gcType secFreed preCps used out h
    simp only [f2fs_gc_loop] at h
    repeat' split at h
    all_goals first
      | (cases h; rfl)
      | (exact ih _ _ _ _ _ h)
      | simp_all

theorem f2fs_gc_loop_postCp (spsec : Nat) (sync : Bool) :
    ∀ (rounds : List GcRound) (gcType : GcType) (ret : Int)
      (secFreed preCps used : Nat) (out : GcOutcome),
      f2fs_gc_loop spsec sync rounds gcType ret secFreed preCps used = some out →
      (out.postCp = true ↔ sync = false ∧ out.stopped = false ∧
        out.gcTypeFinal = FG_GC) := by
  intro rounds
  induction rounds with
  | nil =>
    intro gcType ret secFreed preCps used out h
    exact absurd h (by simp [f2fs_gc_loop])
  | cons r rs ih =>
    intro gcType ret secFreed preCps used out h
    simp only [f2fs_gc_loop] at h
    repeat' split at h
    all_goals first
      | (exact ih _ _ _ _ _ _ h)
      | (cases h; simp_all)

/-- C2 (amended): a sync `f2fs_gc` returns 0 when a section was freed and
`-EAGAIN` otherwise, even on the unmount/checkpoint-error path; `-EINVAL` is
reported exactly for a `!sync` call whose first round stops without a victim
(unmount, latched checkpoint error, or empty selection), and the GC thread
responds to any nonzero return by sleeping `no_gc_sleep_time` next. -/
theorem C2_f2fs_gc_result :
    (∀ (spsec : Nat) (r : GcRound) (rs : List GcRound) (out : GcOutcome),
       f2fs_gc spsec true (r :: rs) = some out →
       out.ret = if out.secFreed > 0 then 0 else EAGAIN) ∧
    (∀ (spsec : Nat) (r : GcRound) (rs : List GcRound) (out : GcOutcome),
       f2fs_gc spsec false (r :: rs) = some out →
       ((out.ret = EINVAL ↔ round1_aborts r = true) ∧
        (out.ret = 0 ↔ round1_aborts r = false))) ∧
    (∀ (noGcSleep waitMs : Nat) (gcRet : Int), gcRet ≠ 0 →
       gc_thread_wait_after_gc noGcSleep gcRet waitMs = noGcSleep) := by
  refine ⟨?_, ?_, ?_⟩
  · intro spsec r rs out h
    simp only [f2fs_gc, f2fs_gc_loop] at h
    repeat' split at h
    all_goals first
      | (cases h; rfl)
      | simp_all
  · intro spsec r rs out h
    simp only [f2fs_gc, f2fs_gc_loop] at h
    repeat' split at h
    all_goals first
      | (have h0 := f2fs_gc_loop_ret_zero spsec rs _ _ _ _ _ h
         rcases hE : r.victimEsc with _ | v <;>
           simp_all [round1_aborts, round_finds_victim, EINVAL, EAGAIN]
         done)
      | (cases h
         rcases hE : r.victimEsc with _ | v <;>
           simp_all [round1_aborts, round_finds_victim, EINVAL, EAGAIN]
         done)
      | (cases h
         simp_all [round1_aborts, round_finds_victim, EINVAL, EAGAIN]
         rcases ‹r.msActive = false ∨ r.cpError = true› with hA | hA <;> simp_all
         done)
  · intro noGcSleep waitMs gcRet h
    simp [gc_thread_wait_after_gc, h]

/-- Counterexample to C2 as stated: a sync call under unmount returns
`-EAGAIN`, not `-EINVAL`, because `if (sync) ret = sec_freed ? 0 : -EAGAIN`
overwrites the error on every sync exit. -/
theorem C2_f2fs_gc_counterexample :
    roundUnmount.msActive = false ∧
    (f2fs_gc 2 true [roundUnmount]).map GcOutcome.ret = some EAGAIN ∧
    EAGAIN ≠ EINVAL := by decide

/-- Witness for C2 at concrete rounds. -/
theorem C2_f2fs_gc_witness :
    outSyncOk.ret = (if outSyncOk.secFreed > 0 then 0 else EAGAIN) ∧
    (outBgNoVictim.ret = EINVAL ↔ round1_aborts roundNoVictim = true) ∧
    (outBgNoVictim.ret = 0 ↔ round1_aborts roundNoVictim = false) ∧
    gc_thread_wait_after_gc 300000 EINVAL 30000 = 300000 :=
  ⟨C2_f2fs_gc_result.1 2 roundOk [] outSyncOk (by decide),
   (C2_f2fs_gc_result.2.1 2 roundNoVictim [] outBgNoVictim (by decide)).1,
   (C2_f2fs_gc_result.2.1 2 roundNoVictim [] outBgNoVictim (by decide)).2,
   C2_f2fs_gc_result.2.2 300000 30000 EINVAL (by decide)⟩

/-- C3 (amended): a sync call runs exactly one round, in foreground mode,
and performs no post-pass checkpoint; the post-pass checkpoint runs exactly
when a `!sync` call exits through the bottom of the `gc_more` loop with its
mode escalated to FG. -/
theorem C3_sync_checkpoint :
    (∀ (spsec : Nat) (r : GcRound) (rs : List GcRound) (out : GcOutcome),
       f2fs_gc spsec true (r :: rs) = some out →
       out.gcTypeFinal = FG_GC ∧ out.roundsUsed = 1 ∧ out.postCp = false) ∧
    (∀ (spsec : Nat) (sync : Bool) (rounds : List GcRound) (out : GcOutcome),
       f2fs_gc spsec sync rounds = some out →
       (out.postCp = true ↔ sync = false ∧ out.stopped = false ∧
         out.gcTypeFinal = FG_GC)) := by
  refine ⟨?_, ?_⟩
  · intro spsec r rs out h
    simp only [f2fs_gc, f2fs_gc_loop] at h
    repeat' split at h
    all_goals first
      | (cases h; exact ⟨rfl, rfl, rfl⟩)
      | simp_all
  · intro spsec sync rounds out h
    exact f2fs_gc_loop_postCp spsec sync rounds _ _ _ _ _ out h

/-- Counterexample to C3 as stated: a successful sync round (mode FG) exits
without the post-pass checkpoint, which sits inside the `!sync` branch. -/
theorem C3_sync_checkpoint_counterexample :
    (f2fs_gc 2 true [roundOk]).map (fun o => (o.ret, o.secFreed, o.postCp)) =
      some (0, 1, false) := by decide

/-- Witness for C3 at concrete rounds. -/
theorem C3_sync_checkpoint_witness :
    (outSyncOk.gcTypeFinal = FG_GC ∧ outSyncOk.roundsUsed = 1 ∧
      outSyncOk.postCp = false) ∧
    (outBgEsc.postCp = true ↔ false = false ∧ outBgEsc.stopped = false ∧
      outBgEsc.gcTypeFinal = FG_GC) :=
  ⟨C3_sync_checkpoint.1 2 roundOk [] outSyncOk (by decide),
   C3_sync_checkpoint.2 2 false [roundEsc] outBgEsc (by decide)⟩

theorem get_gc_cost_segsPerSec (sbi : Sbi) (segno : Nat) (p : VictimPolicy) :
    (get_gc_cost sbi segno p).2.segsPerSec = sbi.segsPerSec := by
  rw [get_gc_cost]
  split
  · rfl
  · split
    · rfl
    · rfl

theorem scan_step_segsPerSec_done (gcType : GcType) (p : VictimPolicy)
    (maxCost : Nat) (st st' : ScanState) (e : ScanExit)
    (h : scan_step gcType p maxCost st = ScanStep.done st' e) :
    st'.sbi.segsPerSec = st.sbi.segsPerSec := by
  simp only [scan_step] at h
  repeat' split at h
  all_goals cases h
  all_goals first
    | rfl
    | (exact get_gc_cost_segsPerSec _ _ _)

theorem scan_step_segsPerSec_next (gcType : GcType) (p : VictimPolicy)
    (maxCost : Nat) (st st' : ScanState)
    (h : scan_step gcType p maxCost st = ScanStep.next st') :
    st'.sbi.segsPerSec = st.sbi.segsPerSec := by
  simp only [scan_step] at h
  repeat' split at h
  all_goals cases h
  all_goals first
    | rfl
    | (exact get_gc_cost_segsPerSec _ _ _)

theorem scan_loop_segsPerSec (gcType : GcType) (p : VictimPolicy) (maxCost : Nat) :
    ∀ (fuel : Nat) (st : ScanState) (r : ScanState × ScanExit),
      scan_loop gcType p maxCost fuel st = some r →
      r.1.sbi.segsPerSec = st.sbi.segsPerSec := by
  intro fuel
  induction fuel with
  | zero =>
    intro st r h
    exact absurd h (by simp [scan_loop])
  | succ n ih =>
    intro st r h
    cases hstep : scan_step gcType p maxCost st with
    | done st' e =>
      simp only [scan_loop, hstep] at h
      cases h
      exact scan_step_segsPerSec_done gcType p maxCost st st' e hstep
    | next st' =>
      simp only [scan_loop, hstep] at h
      rw [ih st' r h]
      exact scan_step_segsPerSec_next gcType p maxCost st st' hstep

theorem scan_step_min_inv_done (gcType : GcType) (p : VictimPolicy)
    (maxCost : Nat) (st st' : ScanState) (e : ScanExit)
    (h : scan_step gcType p maxCost st = ScanStep.done st' e)
    (h1 : st.minCost ≤ maxCost) (h2 : st.minCost = maxCost → st.minSegno = none) :
    st'.minCost ≤ maxCost ∧ (st'.minCost = maxCost → st'.minSegno = none) := by
  simp only [scan_step] at h
  repeat' split at h
  all_goals cases h
  all_goals try dsimp only
  all_goals first
    | (exact ⟨h1, h2⟩)
    | (exact ⟨by omega, fun habs => absurd habs (by omega)⟩)

theorem scan_step_min_inv_next (gcType : GcType) (p : VictimPolicy)
    (maxCost : Nat) (st st' : ScanState)
    (h : scan_step gcType p maxCost st = ScanStep.next st')
    (h1 : st.minCost ≤ maxCost) (h2 : st.minCost = maxCost → st.minSegno = none) :
    st'.minCost ≤ maxCost ∧ (st'.minCost = maxCost → st'.minSegno = none) := by
  simp only [scan_step] at h
  repeat' split at h
  all_goals cases h
  all_goals try dsimp only
  all_goals first
    | (exact ⟨h1, h2⟩)
    | (exact ⟨by omega, fun habs => absurd habs (by omega)⟩)

theorem scan_loop_min_inv (gcType : GcType) (p : VictimPolicy) (maxCost : Nat) :
    ∀ (fuel : Nat) (st : ScanState) (r : ScanState × ScanExit),
      scan_loop gcType p maxCost fuel st = some r →
      st.minCost ≤ maxCost → (st.minCost = maxCost → st.minSegno = none) →
      r.1.minCost ≤ maxCost ∧ (r.1.minCost = maxCost → r.1.minSegno = none) := by
  intro fuel
  induction fuel with
  | zero =>
    intro st r h
    exact absurd h (by simp [scan_loop])
  | succ n ih =>
    intro st r h h1 h2
    cases hstep : scan_step gcType p maxCost st with
    | done st' e =>
      simp only [scan_loop, hstep] at h
      cases h
      exact scan_step_min_inv_done gcType p maxCost st st' e hstep h1 h2
    | next st' =>
      simp only [scan_loop, hstep] at h
      have hn := scan_step_min_inv_next gcType p maxCost st st' hstep h1 h2
      exact ih st' r h hn.1 hn.2

theorem scan_step_nsearched_done (gcType : GcType) (p : VictimPolicy)
    (maxCost : Nat) (st st' : ScanState) (e : ScanExit)
    (h : scan_step gcType p maxCost st = ScanStep.done st' e)
    (h1 : st.nsearched ≤ p.maxSearch) :
    st'.nsearched ≤ p.maxSearch + 1 := by
  simp only [scan_step] at h
  repeat' split at h
  all_goals cases h
  all_goals try dsimp only
  all_goals omega

theorem scan_step_nsearched_next (gcType : GcType) (p : VictimPolicy)
    (maxCost : Nat) (st st' : ScanState)
    (h : scan_step gcType p maxCost st = ScanStep.next st')
    (h1 : st.nsearched ≤ p.maxSearch) :
    st'.nsearched ≤ p.maxSearch := by
  simp only [scan_step] at h
  repeat' split at h
  all_goals cases h
  all_goals try dsimp only
  all_goals omega

theorem scan_loop_nsearched_bound (gcType : GcType) (p : VictimPolicy) (maxCost : Nat) :
    ∀ (fuel : Nat) (st : ScanState) (r : ScanState × ScanExit),
      scan_loop gcType p maxCost fuel st = some r →
      st.nsearched ≤ p.maxSearch →
      r.1.nsearched ≤ p.maxSearch + 1 := by
  intro fuel
  induction fuel with
  | zero =>
    intro st r h
    exact absurd h (by simp [scan_loop])
  | succ n ih =>
    intro st r h h1
    cases hstep : scan_step gcType p maxCost st with
    | done st' e =>
      simp only [scan_loop, hstep] at h
      cases h
      exact scan_step_nsearched_done gcType p maxCost st st' e hstep h1
    | next st' =>
      simp only [scan_loop, hstep] at h
      exact ih st' r h (scan_step_nsearched_next gcType p maxCost st st' hstep h1)

theorem scan_step_capHit_last (gcType : GcType) (p : VictimPolicy)
    (maxCost : Nat) (st st' : ScanState)
    (h : scan_step gcType p maxCost st = ScanStep.done st' ScanExit.capHit) :
    ∃ s, st'.visited.getLast? = some s ∧ st'.sbi.lastVictim p.gcMode = s := by
  simp only [scan_step] at h
  repeat' split at h
  all_goals cases h
  all_goals
    exact ⟨find_next_bit (st.sbi.dirtySegmap p.dirtyType) st.lastSegment st.offset,
      by simp, by simp [setLastVictim]⟩

theorem scan_loop_capHit_last (gcType : GcType) (p : VictimPolicy) (maxCost : Nat) :
    ∀ (fuel : Nat) (st : ScanState) (r : ScanState × ScanExit),
      scan_loop gcType p maxCost fuel st = some r →
      r.2 = ScanExit.capHit →
      ∃ s, r.1.visited.getLast? = some s ∧ r.1.sbi.lastVictim p.gcMode = s := by
  intro fuel
  induction fuel with
  | zero =>
    intro st r h
    exact absurd h (by simp [scan_loop])
  | succ n ih =>
    intro st r h hcap
    cases hstep : scan_step gcType p maxCost st with
    | done st' e =>
      simp only [scan_loop, hstep] at h
      cases h
      cases hcap
      exact scan_step_capHit_last gcType p maxCost st st' hstep
    | next st' =>
      simp only [scan_loop, hstep] at h
      exact ih st' r h hcap

theorem victim_got_it_fields (sbiIn : Sbi) (gcType : GcType) (p : VictimPolicy)
    (ms minCost : Nat) (visited : List Nat) (n : Nat) (e : VictimExit) :
    (victim_got_it sbiIn gcType LFS p ms minCost visited n e).result =
      some (ms / p.ofsUnit * p.ofsUnit) ∧
    (victim_got_it sbiIn gcType LFS p ms minCost visited n e).minSegno = some ms ∧
    (gcType = FG_GC →
      (victim_got_it sbiIn gcType LFS p ms minCost visited n e).sbi.curVictimSec =
        some (ms / sbiIn.segsPerSec)) ∧
    (gcType = BG_GC →
      (victim_got_it sbiIn gcType LFS p ms minCost visited n e).sbi.victimSecmap
        (ms / sbiIn.segsPerSec) = true) := by
  cases gcType <;> simp [victim_got_it, getSecno, setVictimBit]

/-- C4: the max-cost cap is `B` for SSR, `B·unit` for LFS/Greedy and
`UINT_MAX` for LFS/Cost-Benefit; a candidate whose cost equals the cap is
never selected — when the scan starts with an empty minimum at the cap, any
selected victim has cost strictly below the cap, even if a cap-cost
candidate tied the running minimum; and a greedy scan whose only candidate
is a fully-valid section (8 of 8 blocks) selects no victim. -/
theorem C4_max_cost_cap :
    (∀ (sbi : Sbi) (p : VictimPolicy), p.allocMode = SSR →
       get_max_cost sbi p = 2 ^ sbi.logBlocksPerSeg) ∧
    (∀ (sbi : Sbi) (p : VictimPolicy), p.allocMode = LFS → p.gcMode = GC_GREEDY →
       get_max_cost sbi p = 2 ^ sbi.logBlocksPerSeg * p.ofsUnit) ∧
    (∀ (sbi : Sbi) (p : VictimPolicy), p.allocMode = LFS → p.gcMode = GC_CB →
       get_max_cost sbi p = UINT_MAX) ∧
    (∀ (gcType : GcType) (p : VictimPolicy) (maxCost fuel : Nat) (st : ScanState)
       (r : ScanState × ScanExit),
       scan_loop gcType p maxCost fuel st = some r →
       st.minCost = maxCost → st.minSegno = none →
       r.1.minSegno.isSome = true → r.1.minCost < maxCost) ∧
    ((get_victim_by_default sbiFull BG_GC 0 LFS).map (fun v => v.result) =
      some none) := by
  refine ⟨?_, ?_, ?_, ?_, by decide⟩
  · intro sbi p h
    simp [get_max_cost, h]
  · intro sbi p h hg
    simp [get_max_cost, h, hg]
  · intro sbi p h hg
    simp [get_max_cost, h, hg]
  · intro gcType p maxCost fuel st r h h1 h2 hs
    have hi := scan_loop_min_inv gcType p maxCost fuel st r h (le_of_eq h1) (fun _ => h2)
    rcases Nat.lt_or_ge r.1.minCost maxCost with hlt | hge
    · exact hlt
    · have heq : r.1.minCost = maxCost := le_antisymm hi.1 hge
      rw [hi.2 heq] at hs
      exact absurd hs (by simp)

/-- Witness for C4: the SSR cap at a concrete policy, and the scenario-4 scan
(whose selected victim has cost 2) staying strictly below its cap 8. -/
theorem C4_max_cost_cap_witness :
    get_max_cost sbiBase (⟨SSR, GC_GREEDY, 0, 0, 1, 0⟩ : VictimPolicy) =
      2 ^ sbiBase.logBlocksPerSeg ∧
    (scanWrap.get (by decide)).1.minCost < 8 := by
  constructor
  · exact C4_max_cost_cap.1 sbiBase _ rfl
  · exact C4_max_cost_cap.2.2.2.1 BG_GC pWrap 8 64 _ _
      (Option.some_get (by decide)).symm rfl rfl (by decide)

/-- C5 (amended): the scan starts at `last_victim[gc_mode]` and caps
`max_search` at `min(nr_dirty, max_victim_search)`; at most `max_search + 1`
candidates are counted toward the search cap (the break compares `nsearched`
before incrementing, so one extra candidate is cost-examined); on a cap-stop
the last examined segment is stored into `last_victim[gc_mode]`; and the
bitmap scan wraps at most once, rescanning `[0, last_victim)` with
`last_victim` reset to 0 (the spec's wrap-around scenario). -/
theorem C5_scan_bounds :
    (∀ (sbi : Sbi) (gcType : GcType) (type : Nat) (am : AllocMode),
       (select_policy sbi gcType type am).offset =
         sbi.lastVictim (select_policy sbi gcType type am).gcMode) ∧
    (∀ (sbi : Sbi) (gcType : GcType) (type : Nat),
       (select_policy sbi gcType type LFS).maxSearch =
         min (sbi.nrDirty DIRTY) sbi.maxVictimSearch) ∧
    (∀ (gcType : GcType) (p : VictimPolicy) (maxCost fuel : Nat) (st : ScanState)
       (r : ScanState × ScanExit),
       scan_loop gcType p maxCost fuel st = some r → st.nsearched = 0 →
       r.1.nsearched ≤ p.maxSearch + 1) ∧
    (∀ (gcType : GcType) (p : VictimPolicy) (maxCost fuel : Nat) (st : ScanState)
       (r : ScanState × ScanExit),
       scan_loop gcType p maxCost fuel st = some r → r.2 = ScanExit.capHit →
       ∃ s, r.1.visited.getLast? = some s ∧ r.1.sbi.lastVictim p.gcMode = s) ∧
    ((get_victim_by_default sbiWrap BG_GC 0 LFS).map
       (fun v => (v.result, v.visited, v.sbi.lastVictim GC_GREEDY)) =
       some (some 5, [20, 5], 0)) := by
  refine ⟨?_, ?_, ?_, ?_, by decide⟩
  · intro sbi gcType type am
    cases am <;> simp [select_policy]
  · intro sbi gcType type
    simp only [select_policy]
    rw [if_neg (by decide : ¬ (LFS = SSR))]
    dsimp only
    split <;> omega
  · intro gcType p maxCost fuel st r h h0
    exact scan_loop_nsearched_bound gcType p maxCost fuel st r h (by omega)
  · intro gcType p maxCost fuel st r h hcap
    exact scan_loop_capHit_last gcType p maxCost fuel st r h hcap

/-- Counterexample to C5 as stated: with `max_victim_search = 1` and three
dirty segments, the scan cost-examines two candidates — more than
`max_search` — and selects the second one. -/
theorem C5_scan_bounds_counterexample :
    (select_policy sbiCap BG_GC 0 LFS).maxSearch = 1 ∧
    (get_victim_by_default sbiCap BG_GC 0 LFS).map
      (fun v => (v.visited.length, v.result, v.sbi.lastVictim GC_GREEDY)) =
      some (2, some 5, 5) := by decide

/-- Witness for C5 on the capped concrete scan. -/
theorem C5_scan_bounds_witness :
    (scanCap.get (by decide)).1.nsearched ≤ pCap.maxSearch + 1 ∧
    (scanCap.get (by decide)).1.sbi.lastVictim pCap.gcMode = 5 := by
  constructor
  · exact C5_scan_bounds.2.2.1 BG_GC pCap 8 64 _ _
      (Option.some_get (by decide)).symm rfl
  · obtain ⟨s, hs1, hs2⟩ := C5_scan_bounds.2.2.2.1 BG_GC pCap 8 64 _
      (scanCap.get (by decide)) (Option.some_get (by decide)).symm (by decide)
    have hx : (scanCap.get (by decide : scanCap.isSome = true)).1.visited.getLast? =
        some 5 := by decide
    have h5 : some s = some 5 := hs1.symm.trans hx
    cases h5
    exact hs2

theorem get_victim_lfs_cases (sbi : Sbi) (gcType : GcType) (type : Nat)
    (out : VictimOut)
    (h : get_victim_by_default sbi gcType type LFS = some out) :
    (out.minSegno = none ∧ out.result = none) ∨
    (∃ ms, out.minSegno = some ms ∧
      out.result = some (ms / (select_policy sbi gcType type LFS).ofsUnit *
        (select_policy sbi gcType type LFS).ofsUnit) ∧
      (gcType = FG_GC → out.sbi.curVictimSec = some (ms / sbi.segsPerSec)) ∧
      (gcType = BG_GC → out.sbi.victimSecmap (ms / sbi.segsPerSec) = true)) := by
  simp only [get_victim_by_default] at h
  by_cases h0 : (select_policy sbi gcType type LFS).maxSearch = 0
  · rw [if_pos h0] at h
    cases h
    exact Or.inl ⟨rfl, rfl⟩
  · rw [if_neg h0] at h
    by_cases hFG : gcType = FG_GC
    · subst hFG
      rw [if_pos (by simp)] at h
      split at h
      · next ms' sbi₁ hfast =>
          cases h
          rcases hfind : (List.range (mainSecs sbi)).find?
              (fun s => sbi.victimSecmap s && !sbi.secUsage s) with _ | secno
          · simp only [check_bg_victims, hfind] at hfast
            exact absurd hfast (by simp)
          · simp only [check_bg_victims, hfind] at hfast
            injection hfast with hf1 hf2
            injection hf1 with hf1
            subst hf2
            subst hf1
            have hfields := victim_got_it_fields (clearVictimBit sbi secno) FG_GC
              (select_policy sbi FG_GC type LFS) (secno * sbi.segsPerSec)
              (get_max_cost sbi (select_policy sbi FG_GC type LFS)) [] 0
              VictimExit.fastPath
            exact Or.inr ⟨secno * sbi.segsPerSec, hfields.2.1, hfields.1,
              hfields.2.2.1, hfields.2.2.2⟩
      · next sbi₁ hfast =>
          have hsbi1 : sbi = sbi₁ := by
            rcases hfind : (List.range (mainSecs sbi)).find?
                (fun s => sbi.victimSecmap s && !sbi.secUsage s) with _ | secno
            · simp only [check_bg_victims, hfind] at hfast
              injection hfast with hf1 hf2
            · simp only [check_bg_victims, hfind] at hfast
              injection hfast with hf1 hf2
              all_goals exact absurd hf1 (by simp)
          subst hsbi1
          split at h
          · next hscan => exact Option.noConfusion h
          · next st e hscan =>
              split at h
              · next hms0 =>
                  cases h
                  exact Or.inl ⟨rfl, rfl⟩
              · next ms0 hms0 =>
                  cases h
                  have hsegs : st.sbi.segsPerSec = sbi.segsPerSec :=
                    scan_loop_segsPerSec FG_GC _ _ _ _ _ hscan
                  have hfields := victim_got_it_fields st.sbi FG_GC
                    (select_policy sbi FG_GC type LFS) ms0 st.minCost st.visited
                    st.nsearched (VictimExit.scanned e)
                  rw [hsegs] at hfields
                  exact Or.inr ⟨ms0, hfields.2.1, hfields.1, hfields.2.2.1,
                    hfields.2.2.2⟩
    · rw [if_neg (fun hc => hFG hc.2)] at h
      split at h
      · next ms' sbi₁ hfast =>
          injection hfast with hf1 hf2
          exact absurd hf1 (by simp)
      · next sbi₁ hfast =>
          injection hfast with hf1 hf2
          subst hf2
          split at h
          · next hscan => exact Option.noConfusion h
          · next st e hscan =>
              split at h
              · next hms0 =>
                  cases h
                  exact Or.inl ⟨rfl, rfl⟩
              · next ms0 hms0 =>
                  cases h
                  have hsegs : st.sbi.segsPerSec = sbi.segsPerSec :=
                    scan_loop_segsPerSec gcType _ _ _ _ _ hscan
                  have hfields := victim_got_it_fields st.sbi gcType
                    (select_policy sbi gcType type LFS) ms0 st.minCost st.visited
                    st.nsearched (VictimExit.scanned e)
                  rw [hsegs] at hfields
                  exact Or.inr ⟨ms0, hfields.2.1, hfields.1, hfields.2.2.1,
                    hfields.2.2.2⟩

/-- C6 (amended): every successful LFS selection returns
`(min_segno / ofs_unit) * ofs_unit`, records the section in `cur_victim_sec`
on FG and sets its `victim_secmap` bit on BG; and — provided the capped
dirty count `max_search` is nonzero — an LFS/FG call first consults
`victim_secmap` and returns the first usable reserved section immediately,
clearing its bit, without scanning the dirty bitmap. -/
theorem C6_lfs_selection :
    (∀ (sbi : Sbi) (gcType : GcType) (type : Nat) (out : VictimOut),
       get_victim_by_default sbi gcType type LFS = some out →
       out.result = out.minSegno.map
         (fun ms => ms / (select_policy sbi gcType type LFS).ofsUnit *
           (select_policy sbi gcType type LFS).ofsUnit) ∧
       (∀ ms, out.minSegno = some ms →
         (gcType = FG_GC → out.sbi.curVictimSec = some (ms / sbi.segsPerSec)) ∧
         (gcType = BG_GC → out.sbi.victimSecmap (ms / sbi.segsPerSec) = true))) ∧
    (∀ (sbi : Sbi) (type secno : Nat) (out : VictimOut),
       0 < sbi.segsPerSec →
       (select_policy sbi FG_GC type LFS).maxSearch ≠ 0 →
       (List.range (mainSecs sbi)).find?
         (fun s => sbi.victimSecmap s && !sbi.secUsage s) = some secno →
       get_victim_by_default sbi FG_GC type LFS = some out →
       out.exit = VictimExit.fastPath ∧ out.visited = [] ∧
       out.result = some (secno * sbi.segsPerSec) ∧
       out.sbi.victimSecmap secno = false ∧
       out.sbi.curVictimSec = some secno) := by
  constructor
  · intro sbi gcType type out h
    rcases get_victim_lfs_cases sbi gcType type out h with ⟨hns, hnr⟩ | ⟨ms, hms, hres, hfg, hbg⟩
    · refine ⟨by rw [hns, hnr]; rfl, ?_⟩
      intro ms hms
      rw [hns] at hms
      exact Option.noConfusion hms
    · refine ⟨by rw [hms, hres]; rfl, ?_⟩
      intro ms' hms'
      rw [hms] at hms'
      injection hms' with hmse
      subst hmse
      exact ⟨hfg, hbg⟩
  · intro sbi type secno out hpos h0 hfind h
    simp only [get_victim_by_default] at h
    rw [if_neg h0, if_pos (by simp)] at h
    split at h
    · next ms' sbi₁ hfast =>
        cases h
        simp only [check_bg_victims, hfind] at hfast
        injection hfast with hf1 hf2
        injection hf1 with hf1
        subst hf2
        subst hf1
        have hunit : (select_policy sbi FG_GC type LFS).ofsUnit = sbi.segsPerSec := by
          simp only [select_policy]
          rw [if_neg (by decide : ¬ (LFS = SSR))]
        refine ⟨rfl, rfl, ?_, ?_, ?_⟩
        · show some (secno * sbi.segsPerSec / (select_policy sbi FG_GC type LFS).ofsUnit *
            (select_policy sbi FG_GC type LFS).ofsUnit) = _
          rw [hunit, Nat.mul_div_cancel secno hpos]
        · show (if (secno : Nat) = secno then false else sbi.victimSecmap secno) = false
          rw [if_pos rfl]
        · show some (secno * sbi.segsPerSec / sbi.segsPerSec) = some secno
          rw [Nat.mul_div_cancel secno hpos]
    · next sbi₁ hfast =>
        simp only [check_bg_victims, hfind] at hfast
        injection hfast with hf1 hf2
        exact absurd hf1 (by simp)

/-- Counterexample to C6 as stated: with an empty dirty set (`max_search`
is 0), an LFS/FG call returns no victim and never consults the
victim-reserved map, although section 3 is reserved and usable. -/
theorem C6_lfs_selection_counterexample :
    sbiNoDirty.victimSecmap 3 = true ∧ sbiNoDirty.secUsage 3 = false ∧
    (List.range (mainSecs sbiNoDirty)).find?
      (fun s => sbiNoDirty.victimSecmap s && !sbiNoDirty.secUsage s) = some 3 ∧
    (get_victim_by_default sbiNoDirty FG_GC 0 LFS).map
      (fun v => (v.result, v.sbi.victimSecmap 3)) = some (none, true) := by
  decide

/-- Witness for C6: the fast path fires on `sbiFast` and returns reserved
section 3 without scanning. -/
theorem C6_lfs_selection_witness :
    (victimFast.get (by decide)).exit = VictimExit.fastPath ∧
    (victimFast.get (by decide)).visited = [] ∧
    (victimFast.get (by decide)).result = some (3 * sbiFast.segsPerSec) ∧
    (victimFast.get (by decide)).sbi.victimSecmap 3 = false ∧
    (victimFast.get (by decide)).sbi.curVictimSec = some 3 :=
  C6_lfs_selection.2 sbiFast 0 3 (victimFast.get (by decide)) (by decide) (by decide)
    (by decide) (Option.some_get (by decide)).symm
